import Mathlib

/-!
# RN2483 / RN2903 serdev driver: line framer and bring-up sequence

A shallow embedding of `src/rn2483.c`.

* Bytes delivered by the transport (`const u8 *data`) are natural numbers;
  CR is 13, LF is 10 and NUL is 0.
* A heap block is the list of its bytes; its capacity is the length of the
  list.  An access outside the block makes the embedded function return
  `none`.
* `rndev->buflen + i - 1` is `size_t` arithmetic and is computed modulo `2 ^ 64`.
  The other sizes cannot wrap: a successful allocation bounds `buflen + count`
  by `KMALLOC_MAX_SIZE`, so the sums stay below `2 ^ 64` and the returned counts
  fit an `int`.
* The hand-over of a completed line to the waiting reader
  (`rn2483_receive_line`, two completions) is not modelled; the framer records
  the arguments of that call.
-/

namespace RN2483

/-! ## Device structure -/

/-- The data fields of `struct rn2483_device`; the handles (`serdev`,
`reset_gpio`), the completions and the mutex belong to the environment.
`buf` is `none` for a NULL pointer and `some block` for an allocated block. -/
structure rn2483_device where
  model : Nat
  hweui : Nat
  band : Nat
  saw_cr : Bool
  buf : Option (List Nat)
  buflen : Nat
deriving DecidableEq

/-- The device structure right after `devm_kzalloc`: every field is zero. -/
def rn2483_device.zeroed : rn2483_device :=
  { model := 0, hweui := 0, band := 0, saw_cr := false, buf := none, buflen := 0 }

/-! ## Memory primitives -/

/-- Number of values of `size_t` on the 64-bit targets of the driver. -/
def SIZE_MOD : Nat := 18446744073709551616

/-- Largest request the kernel allocator serves (4 MiB with 4 KiB pages and
`MAX_ORDER` 11); larger requests fail. -/
def KMALLOC_MAX_SIZE : Nat := 4194304

/-- The call `devm_kmalloc(dev, size, GFP_KERNEL)`.  The environment decides
whether the request succeeds: `pool = none` is an allocation failure, and
`pool = some junk` hands out a block whose uninitialised byte at offset `k` is
`junk k`.  A request of zero bytes yields a non-NULL block of capacity 0. -/
def devm_kmalloc (pool : Option (Nat → Nat)) (size : Nat) : Option (List Nat) :=
  if size ≤ KMALLOC_MAX_SIZE then pool.map fun junk => (List.range size).map junk else none

/-- The call `memcpy(dst + off, src, n)`: `none` when it would read past the
end of `src` or write past the end of `dst`. -/
def memcpy (dst : List Nat) (off : Nat) (src : List Nat) (n : Nat) : Option (List Nat) :=
  if off + n ≤ dst.length ∧ n ≤ src.length then
    some (dst.take off ++ src.take n ++ dst.drop (off + n))
  else none

/-- The store `((char *)blk)[idx] = v`: `none` when `idx` is outside the block. -/
def store (blk : List Nat) (idx : Nat) (v : Nat) : Option (List Nat) :=
  if idx < blk.length then some (blk.set idx v) else none

/-- The C string that starts at the beginning of a block: its bytes up to the
first NUL. -/
def cstr (blk : List Nat) : List Nat := blk.takeWhile fun b => b ≠ 0

/-! ## Line framer (`rn2483_receive_buf`) -/

/-- What one call of `rn2483_receive_buf` did: the device afterwards, the
returned byte count, and the arguments `(sz, len)` of the call of
`rn2483_receive_line` when one was made. -/
structure Received where
  dev : rn2483_device
  ret : Nat
  line : Option (List Nat × Nat)
deriving DecidableEq

/-- The `for` loop of `rn2483_receive_buf` from index `i` on, where the second
list holds the bytes `data[i..]` still to be scanned, followed by the code
after the loop. -/
def receive_loop (data : List Nat) : Nat → List Nat → rn2483_device → Option Received
  | _, [], dev =>
    match dev.buf with
    | none => none
    | some blk =>
      (memcpy blk dev.buflen data data.length).map fun blk1 =>
        { dev := { dev with buf := some blk1, buflen := dev.buflen + data.length },
          ret := data.length, line := none }
  | i, c :: rest, dev =>
    if c = 13 then
      receive_loop data (i + 1) rest { dev with saw_cr := true }
    else if c = 10 ∧ dev.saw_cr = true then
      match dev.buf with
      | none => none
      | some blk =>
        let pos := (dev.buflen + i + (SIZE_MOD - 1)) % SIZE_MOD
        ((if 1 < i then memcpy blk dev.buflen data (i - 1) else some blk).bind
          fun blk1 => store blk1 pos 0).map fun blk2 =>
            { dev := { dev with saw_cr := false, buf := none, buflen := 0 },
              ret := i + 1, line := some (cstr blk2, pos) }
    else
      receive_loop data (i + 1) rest { dev with saw_cr := false }

/-- The function `rn2483_receive_buf(serdev, data, count)` with `count` the
length of `data`; `pool` is the outcome of the one allocation it makes. -/
def rn2483_receive_buf (pool : Option (Nat → Nat)) (dev : rn2483_device)
    (data : List Nat) : Option Received :=
  match dev.buf with
  | none =>
    match devm_kmalloc pool data.length with
    | none => some { dev := dev, ret := 0, line := none }
    | some blk => receive_loop data 0 data { dev with buf := some blk, buflen := 0 }
  | some old =>
    match devm_kmalloc pool (dev.buflen + data.length) with
    | none => some { dev := dev, ret := 0, line := none }
    | some tmp =>
      match memcpy tmp 0 old dev.buflen with
      | none => none
      | some tmp1 => receive_loop data 0 data { dev with buf := some tmp1 }

/-- A sequence of deliveries: each call is given its allocation outcome and its
chunk.  The result lists, per call, the returned count and the line handed to
`rn2483_receive_line`, and is `none` when a call accesses memory out of bounds. -/
def receive_all : rn2483_device → List (Option (Nat → Nat) × List Nat) →
    Option (rn2483_device × List (Nat × Option (List Nat × Nat)))
  | dev, [] => some (dev, [])
  | dev, (pool, data) :: calls =>
    match rn2483_receive_buf pool dev data with
    | none => none
    | some r =>
      match receive_all r.dev calls with
      | none => none
      | some (dev1, out) => some (dev1, (r.ret, r.line) :: out)

/-- The accumulated bytes of the line in progress: the first `buflen` bytes of
the buffer. -/
def accumulator (dev : rn2483_device) : List Nat :=
  match dev.buf with
  | none => []
  | some blk => blk.take dev.buflen

/-- Following the claim's words: index `i` of the chunk holds LF and the byte
logically before it is CR, which is the chunk byte at `i - 1`, or for `i = 0`
the `saw_cr` flag carried over from the previous delivery. -/
def TerminatorAt (saw_cr : Bool) (data : List Nat) (i : Nat) : Prop :=
  data[i]? = some 10 ∧ (if i = 0 then saw_cr = true else data[i - 1]? = some 13)

instance (saw_cr : Bool) (data : List Nat) (i : Nat) : Decidable (TerminatorAt saw_cr data i) := by
  unfold TerminatorAt; infer_instance

/-- The value of `saw_cr` when the loop is about to look at index `i`: the
carried flag for `i = 0`, otherwise whether the byte before is CR. -/
def flagAt (saw_cr : Bool) (data : List Nat) (i : Nat) : Bool :=
  if i = 0 then saw_cr else decide (data[i - 1]? = some 13)

/-- State invariant of the framer: the accumulated bytes fit the buffer, and
`saw_cr` is set exactly when the accumulator ends with CR. -/
def FramerInv (dev : rn2483_device) : Prop :=
  (∀ blk, dev.buf = some blk → dev.buflen ≤ blk.length) ∧
  (dev.saw_cr = true ↔ (accumulator dev).getLast? = some 13)

/-- The code run when the loop finds the terminator at index `k`. -/
def complete_at (data : List Nat) (k : Nat) (blk : List Nat) (dev : rn2483_device) :
    Option Received :=
  ((if 1 < k then memcpy blk dev.buflen data (k - 1) else some blk).bind
    fun blk1 => store blk1 ((dev.buflen + k + (SIZE_MOD - 1)) % SIZE_MOD) 0).map fun blk2 =>
      { dev := { dev with saw_cr := false, buf := none, buflen := 0 },
        ret := k + 1, line := some (cstr blk2, (dev.buflen + k + (SIZE_MOD - 1)) % SIZE_MOD) }

/-! ## Bring-up (`rn2483_probe`)

C strings are lists of characters, without the terminating NUL.  The transport,
the reset line and the receive path (framer and line rendezvous) are the
environment: it fixes the result of every write, and for every wait for a line
whether the wait times out, the copy of the line cannot be allocated, or a line
is read.  Log output (`dev_info`, `dev_err`) is not modelled. -/

def ENOMEM : Int := 12
def EINVAL : Int := 22
def ERANGE : Int := 34
def EPROTO : Int := 71
def ETIMEDOUT : Int := 110
def ENOTSUPP : Int := 524

/-- The line terminator written after every command. -/
def crlf : List Char := [Char.ofNat 13, Char.ofNat 10]

/-- Digit value in the kernel's `_parse_integer`: a decimal digit, or a letter
`a`-`f` in either case (the kernel lower-cases with `c | 0x20`). -/
def digit_value (ch : Char) : Option Nat :=
  if 48 ≤ ch.toNat ∧ ch.toNat ≤ 57 then some (ch.toNat - 48)
  else if 97 ≤ ch.toNat ∧ ch.toNat ≤ 102 then some (ch.toNat - 97 + 10)
  else if 65 ≤ ch.toNat ∧ ch.toNat ≤ 70 then some (ch.toNat - 65 + 10)
  else none

/-- The kernel's `_parse_integer`: reads digits below `base` from the front of
the string; returns the value and the number of characters read.  The value is
not truncated here; `kstrtoull` reports the overflow. -/
def parse_integer (base : Nat) : List Char → Nat → Nat → Nat × Nat
  | [], res, rv => (res, rv)
  | ch :: s, res, rv =>
    match digit_value ch with
    | none => (res, rv)
    | some val =>
      if base ≤ val then (res, rv) else parse_integer base s (res * base + val) (rv + 1)

/-- The kernel's `kstrtoull` for base 10 or 16: an optional `+`, for base 16 an
optional `0x`, at least one digit, an optional newline, then the end of the
string.  Errors are `-ERANGE` (value above 64 bits) and `-EINVAL`. -/
def kstrtoull (s : List Char) (base : Nat) : Except Int Nat :=
  let s1 := match s with
    | ch :: t => if ch = '+' then t else s
    | [] => s
  let s2 := match s1 with
    | c0 :: c1 :: t => if base = 16 ∧ c0 = '0' ∧ (c1 = 'x' ∨ c1 = 'X') then t else s1
    | _ => s1
  let r := parse_integer base s2 0 0
  if SIZE_MOD ≤ r.1 then Except.error (-ERANGE)
  else if r.2 = 0 then Except.error (-EINVAL)
  else
    match s2.drop r.2 with
    | [] => Except.ok r.1
    | ch :: t => if ch = Char.ofNat 10 ∧ t = [] then Except.ok r.1 else Except.error (-EINVAL)

/-- The kernel's `kstrtouint` (and `kstrtou32`): `kstrtoull`, then `-ERANGE`
when the value does not fit 32 bits. -/
def kstrtouint (s : List Char) (base : Nat) : Except Int Nat :=
  match kstrtoull s base with
  | Except.error e => Except.error e
  | Except.ok v => if v < 4294967296 then Except.ok v else Except.error (-ERANGE)

deriving instance DecidableEq for Except

/-- What a wait for a reply line meets: no line within the timeout, a line whose
copy (`devm_kstrdup`) cannot be allocated, or a line. -/
inductive Reply where
  | timeout
  | nomem
  | line (text : List Char)
deriving DecidableEq

/-- The environment's part in one command exchange: the results of the two
`serdev_device_write_buf` calls (command text, then CR LF) and the reply. -/
structure Exchange where
  wr_cmd : Int
  wr_crlf : Int
  reply : Reply

/-- The environment of one run of `rn2483_probe`.  `reset_gpio_err` is the error
of `devm_gpiod_get_optional` when it returns an error pointer; `exchange n` is
what the `n`-th command exchange meets; `lora_strtoeui` is the helper of
`lora.h`, whose source is not part of the driver file: it maps the reply and the
old value of `*val` to its return code and the new value. -/
structure Env where
  kzalloc_ok : Bool
  reset_gpio_err : Option Int
  open_ret : Int
  banner : Reply
  kasprintf_ok : Bool
  exchange : Nat → Exchange
  lora_strtoeui : List Char → Nat → Int × Nat

/-- State of a run: the device structure, the buffers passed to
`serdev_device_write_buf` in order (also those of a write that fails), the
values set on the reset line in order, and the number of command exchanges
started. -/
structure Probe where
  dev : rn2483_device
  written : List (List Char)
  gpio : List Nat
  sent : Nat

/-- How a function of the driver ends: it returns a code, or it dereferences a
NULL pointer (`strlen` of the command that `devm_kasprintf` failed to allocate). -/
inductive Status where
  | ret (code : Int)
  | oops
deriving DecidableEq

/-- The function `rn2483_readline_timeout`, given what the wait meets. -/
def rn2483_readline_timeout (reply : Reply) : Except Int (List Char) :=
  match reply with
  | Reply.timeout => Except.error (-ETIMEDOUT)
  | Reply.nomem => Except.error (-ENOMEM)
  | Reply.line text => Except.ok text

/-- The function `rn2483_send_command_timeout`: an `error` result is the
non-zero code it returns, an `ok` result is the line stored in `*resp`. -/
def rn2483_send_command_timeout (env : Env) (p : Probe) (cmd : List Char) :
    Except Int (List Char) × Probe :=
  let x := env.exchange p.sent
  let p1 := { p with sent := p.sent + 1, written := p.written ++ [cmd] }
  if x.wr_cmd < 0 then (Except.error x.wr_cmd, p1)
  else
    let p2 := { p1 with written := p1.written ++ [crlf] }
    if x.wr_crlf < 0 then (Except.error x.wr_crlf, p2)
    else (rn2483_readline_timeout x.reply, p2)

/-- The function `rn2483_sys_get_hweui(rndev, &rndev->hweui)`. -/
def rn2483_sys_get_hweui (env : Env) (p : Probe) : Int × Probe :=
  match rn2483_send_command_timeout env p "sys get hweui".toList with
  | (Except.error ret, p1) => (ret, p1)
  | (Except.ok resp, p1) =>
    let r := env.lora_strtoeui resp p1.dev.hweui
    (r.1, { p1 with dev := { p1.dev with hweui := r.2 } })

/-- The function `rn2483_mac_get_band(rndev, &rndev->band)`. -/
def rn2483_mac_get_band (env : Env) (p : Probe) : Int × Probe :=
  match rn2483_send_command_timeout env p "mac get band".toList with
  | (Except.error ret, p1) => (ret, p1)
  | (Except.ok resp, p1) =>
    match kstrtouint resp 10 with
    | Except.error e => (e, p1)
    | Except.ok v => (0, { p1 with dev := { p1.dev with band := v } })

/-- The function `rn2483_mac_get_status`; the value goes to a local variable
that is only logged. -/
def rn2483_mac_get_status (env : Env) (p : Probe) : Int × Probe :=
  match rn2483_send_command_timeout env p "mac get status".toList with
  | (Except.error ret, p1) => (ret, p1)
  | (Except.ok resp, p1) =>
    match kstrtouint resp 16 with
    | Except.error e => (e, p1)
    | Except.ok _ => (0, p1)

/-- The function `rn2483_mac_reset_band`: the command is formatted with
`devm_kasprintf`, whose result is used unchecked. -/
def rn2483_mac_reset_band (env : Env) (p : Probe) (band : Nat) : Status × Probe :=
  if env.kasprintf_ok = false then (Status.oops, p)
  else
    match rn2483_send_command_timeout env p ("mac reset ".toList ++ Nat.toDigits 10 band) with
    | (Except.error ret, p1) => (Status.ret ret, p1)
    | (Except.ok resp, p1) =>
      if resp = "ok".toList then (Status.ret 0, p1)
      else if resp = "invalid_param".toList then (Status.ret (-EINVAL), p1)
      else (Status.ret (-EPROTO), p1)

/-- The function `rn2483_mac_pause`; the value goes to a local variable that is
only logged. -/
def rn2483_mac_pause (env : Env) (p : Probe) : Int × Probe :=
  match rn2483_send_command_timeout env p "mac pause".toList with
  | (Except.error ret, p1) => (ret, p1)
  | (Except.ok resp, p1) =>
    match kstrtouint resp 10 with
    | Except.error e => (e, p1)
    | Except.ok _ => (0, p1)

/-- The function `rn2483_mac_resume`. -/
def rn2483_mac_resume (env : Env) (p : Probe) : Int × Probe :=
  match rn2483_send_command_timeout env p "mac resume".toList with
  | (Except.error ret, p1) => (ret, p1)
  | (Except.ok resp, p1) => (if resp = "ok".toList then 0 else -EPROTO, p1)

/-- The error exit of `rn2483_probe` (labels `err_band` to `err_timeout`): the
reset line is driven low and `ret` is returned. -/
def probe_fail (ret : Int) (p : Probe) : Status × Probe :=
  (Status.ret ret, { p with gpio := p.gpio ++ [0] })

/-- Lines 327-350 of `rn2483_probe`: status, pause, resume and the final
`mac get sync`; every return code is dropped and the function returns 0. -/
def probe_status_onwards (env : Env) (p : Probe) : Status × Probe :=
  let p1 := (rn2483_mac_get_status env p).2
  let p2 := (rn2483_mac_pause env p1).2
  let p3 := (rn2483_mac_resume env p2).2
  let p4 := (rn2483_send_command_timeout env p3 "mac get sync".toList).2
  (Status.ret 0, p4)

/-- Lines 301-350 of `rn2483_probe`: the `switch` on the model, then the rest. -/
def probe_band_onwards (env : Env) (p : Probe) : Status × Probe :=
  if p.dev.model = 2483 then
    match rn2483_mac_get_band env p with
    | (ret, p1) =>
      if ret ≠ 0 then probe_fail ret p1
      else
        match rn2483_mac_reset_band env p1 433 with
        | (Status.oops, p2) => (Status.oops, p2)
        | (Status.ret ret2, p2) =>
          if ret2 ≠ 0 then probe_fail ret2 p2
          else
            let p3 := { p2 with dev := { p2.dev with band := 433 } }
            probe_status_onwards env (rn2483_mac_get_band env p3).2
  else if p.dev.model = 2903 then
    probe_status_onwards env { p with dev := { p.dev with band := 915 } }
  else
    probe_status_onwards env p

/-- The function `rn2483_probe`. -/
def rn2483_probe (env : Env) : Status × Probe :=
  let p0 : Probe := { dev := rn2483_device.zeroed, written := [], gpio := [], sent := 0 }
  if env.kzalloc_ok = false then (Status.ret (-ENOMEM), p0)
  else
    match env.reset_gpio_err with
    | some e => (Status.ret e, p0)
    | none =>
      if env.open_ret ≠ 0 then (Status.ret env.open_ret, p0)
      else
        let p1 := { p0 with gpio := [0, 1] }
        match rn2483_readline_timeout env.banner with
        | Except.error ret => probe_fail ret p1
        | Except.ok resp =>
          if resp.length < "RNxxxx X.Y.Z MMM DD YYYY HH:MM:SS".toList.length ∨
              resp[6]? ≠ some ' ' ∨ resp.take 2 ≠ "RN".toList then
            probe_fail (-EINVAL) p1
          else
            match kstrtouint ((resp.drop 2).take 4) 10 with
            | Except.error e => probe_fail e p1
            | Except.ok model =>
              let p2 := { p1 with dev := { p1.dev with model := model } }
              if ¬ (model = 2483 ∨ model = 2903) then probe_fail (-ENOTSUPP) p2
              else
                match rn2483_sys_get_hweui env p2 with
                | (ret, p3) =>
                  if ret ≠ 0 then probe_fail ret p3 else probe_band_onwards env p3

/-- The commands issued in a run: the written buffers without the CR LF
terminators. -/
def commands (p : Probe) : List (List Char) :=
  p.written.filter fun w => w ≠ crlf

/-- The driver was allocated, the reset line obtained and the port opened, so
that the run reaches the wait for the banner. -/
def Env.started (env : Env) : Prop :=
  env.kzalloc_ok = true ∧ env.reset_gpio_err = none ∧ env.open_ret = 0

/-- The banner line used in the specification. -/
def banner_2483 : List Char := "RN2483 1.0.3 Nov 23 2016 10:55:12".toList

/-- An environment in which every step succeeds except the confirming second
`mac get band`, which times out. -/
def env_second_get_band_times_out : Env :=
  { kzalloc_ok := true, reset_gpio_err := none, open_ret := 0,
    banner := Reply.line banner_2483, kasprintf_ok := true,
    exchange := fun n =>
      { wr_cmd := 0, wr_crlf := 2,
        reply := if n = 0 then Reply.line "0004A30B001A2B3C".toList
          else if n = 1 then Reply.line "868".toList
          else if n = 2 then Reply.line "ok".toList
          else if n = 3 then Reply.timeout
          else if n = 4 then Reply.line "00000001".toList
          else if n = 5 then Reply.line "4294967245".toList
          else Reply.line "ok".toList },
    lora_strtoeui := fun _ v => (0, v) }

/-- The buffers that one command exchange passes to the transport: the
command, and the CR LF unless the first write failed. -/
def wire (env : Env) (n : Nat) (cmd : List Char) : List (List Char) :=
  cmd :: (if (env.exchange n).wr_cmd < 0 then [] else [crlf])

/-- The result of the `n`-th command exchange. -/
def outcome (env : Env) (n : Nat) : Except Int (List Char) :=
  if (env.exchange n).wr_cmd < 0 then Except.error (env.exchange n).wr_cmd
  else if (env.exchange n).wr_crlf < 0 then Except.error (env.exchange n).wr_crlf
  else rn2483_readline_timeout (env.exchange n).reply

/-- The `n`-th exchange goes through: both writes are accepted and the line
`text` is read as the reply. -/
def Env.replies (env : Env) (n : Nat) (text : List Char) : Prop :=
  0 ≤ (env.exchange n).wr_cmd ∧ 0 ≤ (env.exchange n).wr_crlf ∧
    (env.exchange n).reply = Reply.line text

/-- The `n`-th exchange yields no line: a write fails, the wait times out, or
the copy of the line cannot be allocated. -/
def Env.no_reply (env : Env) (n : Nat) : Prop :=
  (env.exchange n).wr_cmd < 0 ∨ (env.exchange n).wr_crlf < 0 ∨
    (env.exchange n).reply = Reply.timeout ∨ (env.exchange n).reply = Reply.nomem

/-- The banner is a line that passes the format check of `rn2483_probe` and
whose characters at offsets 2-5 are read as the number `model`. -/
def Env.banner_model (env : Env) (model : Nat) : Prop :=
  ∃ text, env.banner = Reply.line text ∧ 33 ≤ text.length ∧ text[6]? = some ' ' ∧
    text.take 2 = "RN".toList ∧ kstrtouint ((text.drop 2).take 4) 10 = Except.ok model

/-- The read of the hardware identifier succeeds: `sys get hweui` is answered by
a line that `lora_strtoeui` accepts. -/
def Env.hweui_read (env : Env) : Prop :=
  ∃ text, env.replies 0 text ∧ (env.lora_strtoeui text 0).1 = 0

/-- The state of a run when the banner has been accepted with model `m`. -/
def identified (m : Nat) : Probe :=
  { dev := { rn2483_device.zeroed with model := m }, written := [], gpio := [0, 1], sent := 0 }

/-- An environment whose banner line is too short for the format check. -/
def env_short_banner : Env :=
  { kzalloc_ok := true, reset_gpio_err := none, open_ret := 0,
    banner := Reply.line "RN2483".toList, kasprintf_ok := true,
    exchange := fun _ => { wr_cmd := 0, wr_crlf := 2, reply := Reply.line "ok".toList },
    lora_strtoeui := fun _ v => (0, v) }

/-- The `n`-th exchange is answered by a line that parses as a decimal band. -/
def Env.band_read (env : Env) (n : Nat) : Prop :=
  ∃ text v, env.replies n text ∧ kstrtouint text 10 = Except.ok v

/-- The `n`-th exchange fails as a band read: by write error, timeout or failed
copy, or by a reply that does not parse as a decimal number. -/
def Env.band_fails (env : Env) (n : Nat) : Prop :=
  env.no_reply n ∨ ∃ text e, env.replies n text ∧ kstrtouint text 10 = Except.error e

/-- The identifier read fails: by write error, timeout or failed copy, or by a
reply that `lora_strtoeui` rejects. -/
def Env.hweui_fails (env : Env) : Prop :=
  env.no_reply 0 ∨ ∃ text, env.replies 0 text ∧ (env.lora_strtoeui text 0).1 ≠ 0

/-- An environment with the banner of an RN2903 in which the identifier is read
and every later exchange times out. -/
def env_2903 : Env :=
  { kzalloc_ok := true, reset_gpio_err := none, open_ret := 0,
    banner := Reply.line "RN2903 0.9.8 Feb 14 2017 20:17:03".toList, kasprintf_ok := true,
    exchange := fun n =>
      { wr_cmd := 0, wr_crlf := 2,
        reply := if n = 0 then Reply.line "0004A30B001A2B3C".toList else Reply.timeout },
    lora_strtoeui := fun _ v => (0, v) }

/-- An environment with the banner of an RN2483 in which the identifier is
read, the first `mac get band` and `mac reset 433` meet the given replies, and
every later exchange times out. -/
def env_2483 (band_reply reset_reply : Reply) : Env :=
  { kzalloc_ok := true, reset_gpio_err := none, open_ret := 0,
    banner := Reply.line banner_2483, kasprintf_ok := true,
    exchange := fun n =>
      { wr_cmd := 0, wr_crlf := 2,
        reply := if n = 0 then Reply.line "0004A30B001A2B3C".toList
          else if n = 1 then band_reply
          else if n = 2 then reset_reply
          else Reply.timeout },
    lora_strtoeui := fun _ v => (0, v) }

/-! ## The scanning loop -/

theorem drop_cons_get {data rest : List Nat} {i c : Nat} (h : data.drop i = c :: rest) :
    data[i]? = some c ∧ data.drop (i + 1) = rest ∧ i < data.length := by
  have hlt : i < data.length := by
    by_contra hge
    rw [List.drop_eq_nil_of_le (by omega)] at h
    cases h
  have h2 := List.drop_eq_getElem_cons hlt
  rw [h2] at h
  injection h with h3 h4
  refine ⟨?_, h4, hlt⟩
  rw [List.getElem?_eq_getElem hlt, h3]

theorem flagAt_succ (s0 : Bool) (data : List Nat) (i : Nat) :
    flagAt s0 data (i + 1) = decide (data[i]? = some 13) := by
  simp [flagAt]

theorem terminatorAt_iff (s0 : Bool) (data : List Nat) (i : Nat) :
    TerminatorAt s0 data i ↔ data[i]? = some 10 ∧ flagAt s0 data i = true := by
  unfold TerminatorAt flagAt
  by_cases hi : i = 0 <;> simp [hi]

theorem receive_loop_no_terminator (s0 : Bool) (data : List Nat) (blk : List Nat) :
    ∀ (rest : List Nat) (i : Nat) (dev : rn2483_device),
      data.drop i = rest → i ≤ data.length → dev.saw_cr = flagAt s0 data i →
      dev.buf = some blk → (∀ j, i ≤ j → ¬ TerminatorAt s0 data j) →
      receive_loop data i rest dev =
        (memcpy blk dev.buflen data data.length).map fun blk1 =>
          { dev := { dev with saw_cr := flagAt s0 data data.length, buf := some blk1,
                              buflen := dev.buflen + data.length },
            ret := data.length, line := none } := by
  intro rest
  induction rest with
  | nil =>
    intro i dev hdrop hle hflag hbuf _
    have hi : data.length ≤ i := List.drop_eq_nil_iff.mp hdrop
    have hieq : i = data.length := by omega
    subst hieq
    simp [receive_loop, hbuf, ← hflag]
  | cons c rest ih =>
    intro i dev hdrop hle hflag hbuf hno
    obtain ⟨hget, hrest, hlt⟩ := drop_cons_get hdrop
    by_cases hc : c = 13
    · subst hc
      rw [receive_loop, if_pos rfl]
      rw [ih (i + 1) { dev with saw_cr := true } hrest (by omega)
        (by simp [flagAt_succ, hget]) hbuf (fun j hj => hno j (by omega))]
    · have hnot : ¬ (c = 10 ∧ dev.saw_cr = true) := by
        rintro ⟨h10, hcr⟩
        apply hno i (Nat.le_refl i)
        rw [terminatorAt_iff]
        exact ⟨by rw [hget, h10], by rw [← hflag, hcr]⟩
      rw [receive_loop, if_neg hc, if_neg hnot]
      rw [ih (i + 1) { dev with saw_cr := false } hrest (by omega)
        (by simp [flagAt_succ, hget, hc]) hbuf (fun j hj => hno j (by omega))]

theorem receive_loop_terminator (s0 : Bool) (data : List Nat) (blk : List Nat) (k : Nat)
    (hk : TerminatorAt s0 data k) :
    ∀ (rest : List Nat) (i : Nat) (dev : rn2483_device),
      data.drop i = rest → i ≤ k → dev.saw_cr = flagAt s0 data i →
      dev.buf = some blk → (∀ j, i ≤ j → j < k → ¬ TerminatorAt s0 data j) →
      receive_loop data i rest dev = complete_at data k blk dev := by
  intro rest
  induction rest with
  | nil =>
    intro i dev hdrop hle _ _ _
    have hi : data.length ≤ i := List.drop_eq_nil_iff.mp hdrop
    have := hk.1
    rw [List.getElem?_eq_none (by omega)] at this
    cases this
  | cons c rest ih =>
    intro i dev hdrop hle hflag hbuf hno
    obtain ⟨hget, hrest, hlt⟩ := drop_cons_get hdrop
    by_cases hik : i = k
    · subst hik
      rw [terminatorAt_iff] at hk
      have hc10 : c = 10 := by
        have := hk.1
        rw [hget] at this
        injection this
      have hcr : dev.saw_cr = true := by rw [hflag]; exact hk.2
      rw [receive_loop, if_neg (by omega), if_pos ⟨hc10, hcr⟩]
      simp [hbuf, complete_at]
    · have hnk := hno i (Nat.le_refl i) (by omega)
      by_cases hc : c = 13
      · subst hc
        rw [receive_loop, if_pos rfl]
        rw [ih (i + 1) { dev with saw_cr := true } hrest (by omega)
          (by simp [flagAt_succ, hget]) hbuf (fun j hj hjk => hno j (by omega) hjk)]
        rfl
      · have hnot : ¬ (c = 10 ∧ dev.saw_cr = true) := by
          rintro ⟨h10, hcr⟩
          apply hnk
          rw [terminatorAt_iff]
          exact ⟨by rw [hget, h10], by rw [← hflag, hcr]⟩
        rw [receive_loop, if_neg hc, if_neg hnot]
        rw [ih (i + 1) { dev with saw_cr := false } hrest (by omega)
          (by simp [flagAt_succ, hget, hc]) hbuf (fun j hj hjk => hno j (by omega) hjk)]
        rfl

/-! ## One delivery -/

theorem accumulator_length {dev : rn2483_device}
    (hwf : ∀ blk, dev.buf = some blk → dev.buflen ≤ blk.length) :
    (accumulator dev).length = match dev.buf with | none => 0 | some _ => dev.buflen := by
  unfold accumulator
  cases hb : dev.buf with
  | none => rfl
  | some blk =>
    have := hwf blk hb
    simp only [List.length_take]
    omega

/-- With a successful allocation the function enters the loop with a fresh
block that starts with the accumulated bytes and has room for the chunk. -/
theorem receive_buf_enters_loop (junk : Nat → Nat) (dev : rn2483_device) (data : List Nat)
    (hwf : ∀ blk, dev.buf = some blk → dev.buflen ≤ blk.length)
    (hsize : (accumulator dev).length + data.length ≤ KMALLOC_MAX_SIZE) :
    ∃ tail : List Nat, tail.length = data.length ∧
      rn2483_receive_buf (some junk) dev data =
        receive_loop data 0 data
          { dev with buf := some (accumulator dev ++ tail),
                     buflen := (accumulator dev).length } := by
  have hlen := accumulator_length hwf
  cases hb : dev.buf with
  | none =>
    rw [hb] at hlen
    refine ⟨(List.range data.length).map junk, by simp, ?_⟩
    have hacc : accumulator dev = [] := by simp [accumulator, hb]
    rw [hacc] at hsize ⊢
    simp only [List.length_nil, Nat.zero_add] at hsize
    simp [rn2483_receive_buf, hb, devm_kmalloc, hsize]
  | some old =>
    rw [hb] at hlen
    simp only at hlen
    have hold := hwf old hb
    rw [hlen] at hsize
    refine ⟨((List.range (dev.buflen + data.length)).map junk).drop dev.buflen, by simp, ?_⟩
    have hacc : accumulator dev = old.take dev.buflen := by simp [accumulator, hb]
    simp [rn2483_receive_buf, hb, devm_kmalloc, hsize, memcpy, hold, hacc]

/-- A chunk without terminator, allocation succeeding: no line is emitted, the
chunk is appended to the accumulator and its full length is returned. -/
theorem receive_buf_no_terminator (junk : Nat → Nat) (dev : rn2483_device) (data : List Nat)
    (hwf : ∀ blk, dev.buf = some blk → dev.buflen ≤ blk.length)
    (hsize : (accumulator dev).length + data.length ≤ KMALLOC_MAX_SIZE)
    (hno : ∀ j, ¬ TerminatorAt dev.saw_cr data j) :
    rn2483_receive_buf (some junk) dev data =
      some { dev := { dev with saw_cr := flagAt dev.saw_cr data data.length,
                               buf := some (accumulator dev ++ data),
                               buflen := (accumulator dev).length + data.length },
             ret := data.length, line := none } := by
  obtain ⟨tail, htail, heq⟩ := receive_buf_enters_loop junk dev data hwf hsize
  rw [heq, receive_loop_no_terminator dev.saw_cr data (accumulator dev ++ tail) data 0 _
    rfl (Nat.zero_le _) (by simp [flagAt]) rfl (fun j _ => hno j)]
  simp [memcpy, htail]

theorem cstr_append_nul (a b : List Nat) : cstr (a ++ 0 :: b) = cstr a := by
  induction a with
  | nil => simp [cstr]
  | cons x a ih =>
    unfold cstr at ih ⊢
    simp only [List.cons_append, List.takeWhile_cons]
    rw [ih]

theorem cstr_set_nul (blk : List Nat) (p : Nat) (hp : p < blk.length) :
    cstr (blk.set p 0) = cstr (blk.take p) := by
  rw [List.set_eq_take_append_cons_drop, if_pos hp, cstr_append_nul]

/-- A chunk whose first terminator is at index `k`, allocation succeeding: the
line is the accumulated bytes and the chunk bytes before the CR, the returned
count is `k + 1`, and the accumulator is released. -/
theorem receive_buf_terminator (junk : Nat → Nat) (dev : rn2483_device) (data : List Nat)
    (k : Nat)
    (hwf : ∀ blk, dev.buf = some blk → dev.buflen ≤ blk.length)
    (hcr : dev.saw_cr = true → accumulator dev ≠ [])
    (hsize : (accumulator dev).length + data.length ≤ KMALLOC_MAX_SIZE)
    (hk : TerminatorAt dev.saw_cr data k)
    (hfirst : ∀ j, j < k → ¬ TerminatorAt dev.saw_cr data j) :
    rn2483_receive_buf (some junk) dev data =
      some { dev := { dev with saw_cr := false, buf := none, buflen := 0 },
             ret := k + 1,
             line := some (cstr ((accumulator dev ++ data).take ((accumulator dev).length + k - 1)),
                           (accumulator dev).length + k - 1) } := by
  obtain ⟨tail, htail, heq⟩ := receive_buf_enters_loop junk dev data hwf hsize
  rw [heq, receive_loop_terminator dev.saw_cr data (accumulator dev ++ tail) k hk data 0 _
    rfl (Nat.zero_le _) (by simp [flagAt]) rfl (fun j _ hj => hfirst j hj)]
  have hklt : k < data.length := by
    have := hk.1
    by_contra hge
    rw [List.getElem?_eq_none (by omega)] at this
    cases this
  have hpos1 : 1 ≤ (accumulator dev).length + k := by
    by_cases hk0 : k = 0
    · subst hk0
      have h2 := hk.2
      simp only [if_true] at h2
      have := hcr h2
      have : (accumulator dev).length ≠ 0 := by
        intro h0
        exact this (List.length_eq_zero.mp h0)
      omega
    · omega
  have hmax : KMALLOC_MAX_SIZE = 4194304 := rfl
  have hpos : ((accumulator dev).length + k + (SIZE_MOD - 1)) % SIZE_MOD
      = (accumulator dev).length + k - 1 := by
    unfold SIZE_MOD
    omega
  simp only [complete_at, hpos]
  have hblk : ∃ blk1, (if 1 < k then
        memcpy (accumulator dev ++ tail) (accumulator dev).length data (k - 1)
      else some (accumulator dev ++ tail)) = some blk1 ∧
      blk1.length = (accumulator dev).length + data.length ∧
      blk1.take ((accumulator dev).length + k - 1)
        = (accumulator dev ++ data).take ((accumulator dev).length + k - 1) := by
    by_cases h1 : 1 < k
    · refine ⟨_, by rw [if_pos h1, memcpy, if_pos]; simp [htail]; omega, ?_, ?_⟩
      · simp [htail]; omega
      · have e : (accumulator dev).length + k - 1 = (accumulator dev).length + (k - 1) := by omega
        rw [e]
        simp [List.take_append_eq_append_take, List.take_take]
        left
        omega
    · refine ⟨_, by rw [if_neg h1], by simp [htail], ?_⟩
      have e : (accumulator dev).length + k - 1 ≤ (accumulator dev).length := by omega
      rw [List.take_append_of_le_length e, List.take_append_of_le_length e]
  obtain ⟨blk1, hb1, hlen1, htake1⟩ := hblk
  rw [hb1]
  have hst : store blk1 ((accumulator dev).length + k - 1) 0
      = some (blk1.set ((accumulator dev).length + k - 1) 0) := by
    rw [store, if_pos (by omega)]
  simp only [Option.some_bind, hst, Option.map_some']
  rw [cstr_set_nul _ _ (by omega), htake1]

/-- When the allocation fails the call returns 0 and leaves the device as it was. -/
theorem receive_buf_alloc_failure (pool : Option (Nat → Nat)) (dev : rn2483_device)
    (data : List Nat)
    (hwf : ∀ blk, dev.buf = some blk → dev.buflen ≤ blk.length)
    (hfail : devm_kmalloc pool ((accumulator dev).length + data.length) = none) :
    rn2483_receive_buf pool dev data = some { dev := dev, ret := 0, line := none } := by
  have hlen := accumulator_length hwf
  cases hb : dev.buf with
  | none =>
    rw [hb] at hlen
    simp only at hlen
    rw [hlen, Nat.zero_add] at hfail
    simp [rn2483_receive_buf, hb, hfail]
  | some old =>
    rw [hb] at hlen
    simp only at hlen
    rw [hlen] at hfail
    simp [rn2483_receive_buf, hb, hfail]

theorem devm_kmalloc_cases (pool : Option (Nat → Nat)) (size : Nat) :
    devm_kmalloc pool size = none ∨ (∃ junk, pool = some junk ∧ size ≤ KMALLOC_MAX_SIZE) := by
  unfold devm_kmalloc
  by_cases h : size ≤ KMALLOC_MAX_SIZE
  · cases pool with
    | none => left; simp
    | some junk => right; exact ⟨junk, rfl, h⟩
  · left; simp [h]

theorem exists_first_terminator (s0 : Bool) (data : List Nat)
    (h : ∃ k, TerminatorAt s0 data k) :
    ∃ k, TerminatorAt s0 data k ∧ ∀ j, j < k → ¬ TerminatorAt s0 data j := by
  classical
  exact ⟨Nat.find h, Nat.find_spec h, fun j hj => Nat.find_min h hj⟩

theorem terminatorAt_lt {s0 : Bool} {data : List Nat} {k : Nat} (h : TerminatorAt s0 data k) :
    k < data.length := by
  have := h.1
  by_contra hge
  rw [List.getElem?_eq_none (by omega)] at this
  cases this

theorem flagAt_length (s0 : Bool) (a data : List Nat)
    (h : s0 = true ↔ a.getLast? = some 13) :
    flagAt s0 data data.length = true ↔ (a ++ data).getLast? = some 13 := by
  cases data using List.reverseRecOn with
  | nil => simpa [flagAt] using h
  | append_singleton d x =>
    simp [flagAt, ← List.append_assoc, List.getLast?_append]

theorem framerInv_append (dev : rn2483_device) (data : List Nat) (hinv : FramerInv dev) :
    FramerInv { dev with saw_cr := flagAt dev.saw_cr data data.length,
                         buf := some (accumulator dev ++ data),
                         buflen := (accumulator dev).length + data.length } := by
  refine ⟨?_, ?_⟩
  · intro blk hb
    simp only [Option.some.injEq] at hb
    subst hb
    simp
  · have h2 := hinv.2
    generalize accumulator dev = a at h2 ⊢
    have hacc : (a ++ data).take (a.length + data.length) = a ++ data := by
      rw [← List.length_append, List.take_length]
    simp only [accumulator, hacc]
    exact flagAt_length dev.saw_cr a data h2

theorem framerInv_released (dev : rn2483_device) :
    FramerInv { dev with saw_cr := false, buf := none, buflen := 0 } := by
  refine ⟨?_, ?_⟩
  · intro blk hb
    cases hb
  · simp [accumulator]

theorem framerInv_nonempty {dev : rn2483_device} (hinv : FramerInv dev) :
    dev.saw_cr = true → accumulator dev ≠ [] := by
  intro h hnil
  have := hinv.2.mp h
  rw [hnil] at this
  cases this

/-- Every call made in a state that satisfies the invariant stays inside its
buffers, re-establishes the invariant, and completes a line only at the first
terminator of the chunk. -/
theorem receive_buf_step (pool : Option (Nat → Nat)) (dev : rn2483_device) (data : List Nat)
    (hinv : FramerInv dev) :
    ∃ r, rn2483_receive_buf pool dev data = some r ∧ FramerInv r.dev ∧
      (r.line = none → (r.dev = dev ∧ r.ret = 0) ∨
        (accumulator r.dev = accumulator dev ++ data ∧
          r.dev.buflen = (accumulator dev).length + data.length ∧
          (∃ blk, r.dev.buf = some blk ∧ blk.length = r.dev.buflen))) ∧
      (∀ sz len, r.line = some (sz, len) →
        r.dev = { dev with saw_cr := false, buf := none, buflen := 0 } ∧
        (accumulator dev).length + data.length ≤ KMALLOC_MAX_SIZE ∧
        ∃ i, r.ret = i + 1 ∧ TerminatorAt dev.saw_cr data i ∧
          1 ≤ (accumulator dev).length + i ∧ len = (accumulator dev).length + i - 1) := by
  rcases devm_kmalloc_cases pool ((accumulator dev).length + data.length) with hfail | hok
  · refine ⟨_, receive_buf_alloc_failure pool dev data hinv.1 hfail, hinv, ?_, ?_⟩
    · intro _
      exact Or.inl ⟨rfl, rfl⟩
    · intro sz len h
      cases h
  · obtain ⟨junk, hpool, hsize⟩ := hok
    subst hpool
    by_cases hex : ∃ k, TerminatorAt dev.saw_cr data k
    · obtain ⟨k, hk, hfirst⟩ := exists_first_terminator _ _ hex
      have hcr := framerInv_nonempty hinv
      refine ⟨_, receive_buf_terminator junk dev data k hinv.1 hcr hsize hk hfirst,
        framerInv_released dev, ?_, ?_⟩
      · intro h
        cases h
      · intro sz len h
        simp only [Option.some.injEq, Prod.mk.injEq] at h
        refine ⟨rfl, hsize, k, rfl, hk, ?_, h.2.symm⟩
        by_cases hk0 : k = 0
        · subst hk0
          have h2 := hk.2
          simp only [if_true] at h2
          have hne := hcr h2
          have : (accumulator dev).length ≠ 0 := fun h0 => hne (List.length_eq_zero.mp h0)
          omega
        · omega
    · have hno : ∀ j, ¬ TerminatorAt dev.saw_cr data j := fun j hj => hex ⟨j, hj⟩
      refine ⟨_, receive_buf_no_terminator junk dev data hinv.1 hsize hno,
        framerInv_append dev data hinv, ?_, ?_⟩
      · intro _
        refine Or.inr ⟨?_, rfl, _, rfl, by simp⟩
        simp [accumulator]
      · intro sz len h
        cases h

/-! ## Sequences of deliveries -/

theorem framerInv_initial (dev0 : rn2483_device)
    (h0 : dev0.buf = none ∧ dev0.buflen = 0 ∧ dev0.saw_cr = false) :
    FramerInv dev0 ∧ dev0.buflen = (accumulator dev0).length := by
  obtain ⟨hb, hl, hc⟩ := h0
  refine ⟨⟨?_, ?_⟩, ?_⟩
  · intro blk h
    rw [hb] at h
    cases h
  · simp [accumulator, hb, hc]
  · simp [accumulator, hb, hl]

theorem receive_all_reachable :
    ∀ (calls : List (Option (Nat → Nat) × List Nat)) (dev : rn2483_device),
      FramerInv dev → dev.buflen = (accumulator dev).length →
      ∃ dev1 out, receive_all dev calls = some (dev1, out) ∧
        FramerInv dev1 ∧ dev1.buflen = (accumulator dev1).length := by
  intro calls
  induction calls with
  | nil =>
    intro dev hinv hlen
    exact ⟨dev, [], rfl, hinv, hlen⟩
  | cons call calls ih =>
    intro dev hinv hlen
    obtain ⟨pool, data⟩ := call
    obtain ⟨r, hr, hinv1, hnone, hsome⟩ := receive_buf_step pool dev data hinv
    have hlen1 : r.dev.buflen = (accumulator r.dev).length := by
      cases hl : r.line with
      | none =>
        rcases hnone hl with ⟨hd, _⟩ | ⟨hacc, hbl, _⟩
        · rw [hd]; exact hlen
        · rw [hacc, hbl]; simp
      | some ln =>
        obtain ⟨hd, _⟩ := hsome ln.1 ln.2 hl
        rw [hd]
        simp [accumulator]
    obtain ⟨dev1, out, hall, hinv2, hlen2⟩ := ih r.dev hinv1 hlen1
    exact ⟨dev1, (r.ret, r.line) :: out, by simp [receive_all, hr, hall], hinv2, hlen2⟩

/-- The terminator test of the loop, read on the stream made of the
accumulated bytes followed by the chunk. -/
theorem terminatorAt_stream (dev : rn2483_device) (data : List Nat) (j : Nat)
    (hinv : FramerInv dev) :
    TerminatorAt dev.saw_cr data j ↔
      ∃ p, p + 1 = (accumulator dev).length + j ∧
        (accumulator dev ++ data)[p]? = some 13 ∧ (accumulator dev ++ data)[p + 1]? = some 10 := by
  have h2 := hinv.2
  generalize accumulator dev = a at h2 ⊢
  unfold TerminatorAt
  have hright : (a ++ data)[a.length + j]? = data[j]? := by
    rw [List.getElem?_append_right (by omega)]
    congr 1
    omega
  by_cases hj : j = 0
  · subst hj
    simp only [if_true, Nat.add_zero]
    rw [h2, List.getLast?_eq_getElem?]
    constructor
    · rintro ⟨h10, h13⟩
      have hlt : a.length - 1 < a.length := by
        by_contra hge
        rw [List.getElem?_eq_none (by omega)] at h13
        cases h13
      refine ⟨a.length - 1, by omega, ?_, ?_⟩
      · rw [List.getElem?_append_left hlt]
        exact h13
      · have e : a.length - 1 + 1 = a.length + 0 := by omega
        rw [e, hright]
        exact h10
    · rintro ⟨p, hp, h13, h10⟩
      have hp1 : p = a.length - 1 := by omega
      subst hp1
      have e : a.length - 1 + 1 = a.length + 0 := by omega
      rw [e, hright] at h10
      refine ⟨h10, ?_⟩
      rw [List.getElem?_append_left (by omega)] at h13
      exact h13
  · simp only [if_neg hj]
    have hprev : (a ++ data)[a.length + j - 1]? = data[j - 1]? := by
      rw [List.getElem?_append_right (by omega)]
      congr 1
      omega
    constructor
    · rintro ⟨h10, h13⟩
      refine ⟨a.length + j - 1, by omega, ?_, ?_⟩
      · rw [hprev]; exact h13
      · have e : a.length + j - 1 + 1 = a.length + j := by omega
        rw [e, hright]; exact h10
    · rintro ⟨p, hp, h13, h10⟩
      have hp1 : p = a.length + j - 1 := by omega
      subst hp1
      have e : a.length + j - 1 + 1 = a.length + j := by omega
      rw [e, hright] at h10
      rw [hprev] at h13
      exact ⟨h10, h13⟩

/-- In `txt` followed by CR LF, where `txt` has no CR directly followed by LF, the
only CR LF pair is the final one. -/
theorem crlf_unique (txt : List Nat) (hpair : ∀ j, ¬ (txt[j]? = some 13 ∧ txt[j + 1]? = some 10))
    (p : Nat) :
    ((txt ++ [13, 10])[p]? = some 13 ∧ (txt ++ [13, 10])[p + 1]? = some 10) ↔ p = txt.length := by
  constructor
  · rintro ⟨h13, h10⟩
    by_contra hne
    rcases Nat.lt_or_ge (p + 1) txt.length with h | h
    · rw [List.getElem?_append_left (by omega)] at h13 h10
      exact hpair p ⟨h13, h10⟩
    · rcases Nat.lt_or_ge p txt.length with h1 | h1
      · have e : p + 1 = txt.length := by omega
        rw [e, List.getElem?_append_right (Nat.le_refl _)] at h10
        simp at h10
      · rw [List.getElem?_append_right (by omega)] at h10
        have : 1 ≤ p + 1 - txt.length - 1 := by omega
        have e : p + 1 - txt.length = (p + 1 - txt.length - 2) + 2 := by omega
        rw [e] at h10
        simp at h10
  · intro hp
    subst hp
    constructor
    · rw [List.getElem?_append_right (Nat.le_refl _)]
      simp
    · rw [List.getElem?_append_right (by omega)]
      simp

theorem cstr_of_no_nul (txt : List Nat) (hnul : ∀ b ∈ txt, b ≠ 0) : cstr txt = txt := by
  unfold cstr
  rw [List.takeWhile_eq_self_iff]
  intro b hb
  simpa using hnul b hb

theorem getElem?_of_append_eq {l t s : List Nat} (h : l ++ t = s) {q : Nat} (hq : q < l.length) :
    l[q]? = s[q]? := by
  rw [← h, List.getElem?_append_left hq]

theorem accumulator_append (dev : rn2483_device) (data : List Nat) (f : Bool) :
    accumulator { dev with saw_cr := f, buf := some (accumulator dev ++ data),
                           buflen := (accumulator dev).length + data.length }
      = accumulator dev ++ data := by
  generalize accumulator dev = a
  simp only [accumulator]
  rw [← List.length_append, List.take_length]

/-- One line `txt` followed by CR LF, cut into deliveries `calls ++ [last]` and
fed to a framer whose accumulator already holds the start of the line: the only
line handed over is `txt`, in the last delivery, and every delivery is consumed
whole. -/
theorem framed_line (txt : List Nat) (hnul : ∀ b ∈ txt, b ≠ 0)
    (hpair : ∀ j, ¬ (txt[j]? = some 13 ∧ txt[j + 1]? = some 10))
    (hmax : txt.length + 2 ≤ KMALLOC_MAX_SIZE)
    (last : (Nat → Nat) × List Nat) (hlast : last.2 ≠ []) :
    ∀ (calls : List ((Nat → Nat) × List Nat)) (dev : rn2483_device),
      FramerInv dev →
      accumulator dev ++ ((calls ++ [last]).map fun x => x.2).flatten = txt ++ [13, 10] →
      receive_all dev ((calls ++ [last]).map fun x => (some x.1, x.2)) =
        some ({ dev with saw_cr := false, buf := none, buflen := 0 },
          calls.map (fun x => (x.2.length, none)) ++
            [(last.2.length, some (txt, txt.length))]) := by
  have hlastlen : 1 ≤ last.2.length := by
    rcases hl : last.2 with _ | ⟨b, t⟩
    · exact absurd hl hlast
    · simp
  intro calls
  induction calls with
  | nil =>
    intro dev hinv hstream
    simp only [List.nil_append, List.map_cons, List.map_nil, List.flatten_cons, List.flatten_nil,
      List.append_nil] at hstream ⊢
    have hlen : (accumulator dev).length + last.2.length = txt.length + 2 := by
      have := congrArg List.length hstream
      simpa using this
    have hk : TerminatorAt dev.saw_cr last.2 (last.2.length - 1) := by
      rw [terminatorAt_stream dev _ _ hinv]
      refine ⟨txt.length, by omega, ?_⟩
      rw [hstream]
      exact (crlf_unique txt hpair txt.length).mpr rfl
    have hfirst : ∀ j, j < last.2.length - 1 → ¬ TerminatorAt dev.saw_cr last.2 j := by
      intro j hj hterm
      rw [terminatorAt_stream dev _ _ hinv] at hterm
      obtain ⟨q, hq, hq2⟩ := hterm
      rw [hstream] at hq2
      have := (crlf_unique txt hpair q).mp hq2
      omega
    have hres := receive_buf_terminator last.1 dev last.2 (last.2.length - 1) hinv.1
      (framerInv_nonempty hinv) (by omega) hk hfirst
    have hpos : (accumulator dev).length + (last.2.length - 1) - 1 = txt.length := by omega
    rw [hpos, hstream, List.take_left, cstr_of_no_nul txt hnul] at hres
    have hret : last.2.length - 1 + 1 = last.2.length := by omega
    rw [hret] at hres
    simp [receive_all, hres]
  | cons x calls ih =>
    intro dev hinv hstream
    simp only [List.cons_append, List.map_cons, List.flatten_cons] at hstream ⊢
    generalize hrest : ((calls ++ [last]).map fun x => x.2).flatten = rest at hstream
    have hrestlen : 1 ≤ rest.length := by
      rw [← hrest]
      simp [List.length_flatten]
      omega
    have hlen : (accumulator dev).length + x.2.length + rest.length = txt.length + 2 := by
      have := congrArg List.length hstream
      simp at this
      omega
    have hstream1 : (accumulator dev ++ x.2) ++ rest = txt ++ [13, 10] := by
      rw [List.append_assoc]; exact hstream
    have hno : ∀ j, ¬ TerminatorAt dev.saw_cr x.2 j := by
      intro j hterm
      have hjlt := terminatorAt_lt hterm
      rw [terminatorAt_stream dev _ _ hinv] at hterm
      obtain ⟨q, hq, h13, h10⟩ := hterm
      rw [getElem?_of_append_eq hstream1 (by simp; omega)] at h13 h10
      have := (crlf_unique txt hpair q).mp ⟨h13, h10⟩
      omega
    have hres := receive_buf_no_terminator x.1 dev x.2 hinv.1 (by omega) hno
    have hih := ih _ (framerInv_append dev x.2 hinv)
      (by rw [accumulator_append, hrest]; exact hstream1)
    simp only [receive_all, hres, hih]

/-! ## Claims about the line framer -/

theorem framerInv_of_empty (dev0 : rn2483_device)
    (hstart : dev0.buflen = 0 ∧ dev0.saw_cr = false) :
    FramerInv dev0 ∧ accumulator dev0 = [] := by
  obtain ⟨hl, hc⟩ := hstart
  have hacc : accumulator dev0 = [] := by
    unfold accumulator
    cases dev0.buf with
    | none => rfl
    | some blk => simp [hl]
  refine ⟨⟨?_, ?_⟩, hacc⟩
  · intro blk _
    omega
  · rw [hacc, hc]
    simp

/-- C1: a line `txt` without CR, LF or NUL, followed by CR LF and cut anywhere
(also inside the CR LF) into deliveries, the last of them non-empty, is fed to a
framer with an empty accumulator and `saw_cr = false`, every allocation
succeeding (each call is served a block, and the line with its CR LF is within
`KMALLOC_MAX_SIZE`).  No delivery before the last hands over a line, the last
one hands over exactly `txt` with length `txt.length`, and every delivery is
consumed whole. -/
theorem C1_split_line_emitted_once (txt : List Nat)
    (calls : List ((Nat → Nat) × List Nat)) (last : (Nat → Nat) × List Nat)
    (dev0 : rn2483_device)
    (hstart : dev0.buflen = 0 ∧ dev0.saw_cr = false)
    (htxt : ∀ b ∈ txt, b ≠ 13 ∧ b ≠ 10 ∧ b ≠ 0)
    (hlast : last.2 ≠ [])
    (hsplit : ((calls ++ [last]).map fun x => x.2).flatten = txt ++ [13, 10])
    (hmax : txt.length + 2 ≤ KMALLOC_MAX_SIZE) :
    receive_all dev0 ((calls ++ [last]).map fun x => (some x.1, x.2)) =
      some ({ dev0 with saw_cr := false, buf := none, buflen := 0 },
        calls.map (fun x => (x.2.length, none)) ++
          [(last.2.length, some (txt, txt.length))]) := by
  obtain ⟨hinv, hacc⟩ := framerInv_of_empty dev0 hstart
  have hpair : ∀ j, ¬ (txt[j]? = some 13 ∧ txt[j + 1]? = some 10) := by
    rintro j ⟨h13, _⟩
    exact (htxt 13 (List.getElem?_mem h13)).1 rfl
  exact framed_line txt (fun b hb => (htxt b hb).2.2) hpair hmax last hlast calls dev0 hinv
    (by rw [hacc, List.nil_append]; exact hsplit)

theorem C1_split_line_emitted_once_witness :
    receive_all rn2483_device.zeroed
        [(some fun _ => 0, [111]), (some fun _ => 0, [107, 13]), (some fun _ => 0, [10])] =
      some (rn2483_device.zeroed, [(1, none), (2, none), (1, some ([111, 107], 2))]) :=
  C1_split_line_emitted_once [111, 107] [(fun _ => 0, [111]), (fun _ => 0, [107, 13])]
    (fun _ => 0, [10]) rn2483_device.zeroed ⟨rfl, rfl⟩ (by decide) (by decide) (by decide)
    (by decide)

/-- C3 (what the code does): the single chunk `a CR b CR LF` yields the line
`a CR b` of length 3, which still holds the CR, and not `ab`. -/
theorem C3_lone_cr_not_dropped :
    rn2483_receive_buf (some fun _ => 0) rn2483_device.zeroed [97, 13, 98, 13, 10] =
        some { dev := rn2483_device.zeroed, ret := 5, line := some ([97, 13, 98], 3) } ∧
      13 ∈ [97, 13, 98] ∧ [97, 13, 98] ≠ [97, 98] := by
  decide

/-- C3 (amended): a CR that is not directly followed by LF does not terminate
the line and stays in it.  A line `txt` without NUL and without a CR directly
followed by LF, sent with CR LF after it in any split, is handed over once, in
the last delivery, unchanged: every CR of `txt` is at its place in the line. -/
theorem C3_lone_cr_kept (txt : List Nat)
    (calls : List ((Nat → Nat) × List Nat)) (last : (Nat → Nat) × List Nat)
    (dev0 : rn2483_device)
    (hstart : dev0.buflen = 0 ∧ dev0.saw_cr = false)
    (hnul : ∀ b ∈ txt, b ≠ 0)
    (hpair : ∀ j, ¬ (txt[j]? = some 13 ∧ txt[j + 1]? = some 10))
    (hlast : last.2 ≠ [])
    (hsplit : ((calls ++ [last]).map fun x => x.2).flatten = txt ++ [13, 10])
    (hmax : txt.length + 2 ≤ KMALLOC_MAX_SIZE) :
    ∃ sz : List Nat,
      receive_all dev0 ((calls ++ [last]).map fun x => (some x.1, x.2)) =
        some ({ dev0 with saw_cr := false, buf := none, buflen := 0 },
          calls.map (fun x => (x.2.length, none)) ++
            [(last.2.length, some (sz, txt.length))]) ∧
      sz = txt ∧ ∀ j : Nat, txt[j]? = some 13 → sz[j]? = some 13 := by
  obtain ⟨hinv, hacc⟩ := framerInv_of_empty dev0 hstart
  exact ⟨txt, framed_line txt hnul hpair hmax last hlast calls dev0 hinv
    (by rw [hacc, List.nil_append]; exact hsplit), rfl, fun _ h => h⟩

theorem C3_lone_cr_kept_witness :
    ∃ sz : List Nat,
      receive_all rn2483_device.zeroed [(some fun _ => 0, [97, 13]), (some fun _ => 0, [98, 13, 10])] =
        some (rn2483_device.zeroed, [(2, none), (3, some (sz, 3))]) ∧
      sz = [97, 13, 98] ∧ ∀ j : Nat, [97, 13, 98][j]? = some 13 → sz[j]? = some 13 :=
  C3_lone_cr_kept [97, 13, 98] [(fun _ => 0, [97, 13])] (fun _ => 0, [98, 13, 10])
    rn2483_device.zeroed ⟨rfl, rfl⟩ (by decide)
    (by
      intro j
      rcases j with _ | _ | _ | j <;> simp)
    (by decide) (by decide) (by decide)

/-- C2: in every framer state satisfying the state invariant, with the
allocation succeeding (the call is served a block, and the accumulated bytes
with the chunk are within `KMALLOC_MAX_SIZE`): when the chunk has a terminating LF (preceded by CR in
the chunk, or at index 0 with `saw_cr` carried over), the call returns `i + 1`
for the smallest such index `i`, emits one line, and its whole result is the
same for every chunk that agrees on the bytes up to index `i`; otherwise it
emits no line, appends the whole chunk to the accumulator and returns the
chunk length. -/
theorem C2_receive_buf_consumes_up_to_first_terminator
    (junk : Nat → Nat) (dev : rn2483_device) (data : List Nat)
    (hinv : FramerInv dev)
    (hsize : (accumulator dev).length + data.length ≤ KMALLOC_MAX_SIZE) :
    (∀ i, TerminatorAt dev.saw_cr data i → (∀ j, j < i → ¬ TerminatorAt dev.saw_cr data j) →
      (∃ r, rn2483_receive_buf (some junk) dev data = some r ∧ r.ret = i + 1 ∧
        r.line.isSome = true) ∧
      (∀ (junk1 : Nat → Nat) (data1 : List Nat), data1.take (i + 1) = data.take (i + 1) →
        (accumulator dev).length + data1.length ≤ KMALLOC_MAX_SIZE →
        rn2483_receive_buf (some junk1) dev data1 = rn2483_receive_buf (some junk) dev data)) ∧
    ((∀ i, ¬ TerminatorAt dev.saw_cr data i) →
      ∃ r, rn2483_receive_buf (some junk) dev data = some r ∧ r.line = none ∧
        accumulator r.dev = accumulator dev ++ data ∧ r.ret = data.length) := by
  have hcr := framerInv_nonempty hinv
  refine ⟨?_, ?_⟩
  · intro i hi hfirst
    have hres := receive_buf_terminator junk dev data i hinv.1 hcr hsize hi hfirst
    refine ⟨⟨_, hres, rfl, rfl⟩, ?_⟩
    intro junk1 data1 htake hsize1
    have hilt := terminatorAt_lt hi
    have hget : ∀ j, j ≤ i → data1[j]? = data[j]? := by
      intro j hj
      have h1 : (data1.take (i + 1))[j]? = data1[j]? := by
        rw [List.getElem?_take, if_pos (by omega)]
      have h2 : (data.take (i + 1))[j]? = data[j]? := by
        rw [List.getElem?_take, if_pos (by omega)]
      rw [← h1, ← h2, htake]
    have hterm : ∀ j, j ≤ i → (TerminatorAt dev.saw_cr data1 j ↔ TerminatorAt dev.saw_cr data j) := by
      intro j hj
      unfold TerminatorAt
      rw [hget j hj, hget (j - 1) (by omega)]
    have hres1 := receive_buf_terminator junk1 dev data1 i hinv.1 hcr hsize1
      ((hterm i (Nat.le_refl i)).mpr hi)
      (fun j hj hjt => hfirst j hj ((hterm j (by omega)).mp hjt))
    rw [hres, hres1]
    have hpre : (accumulator dev ++ data1).take ((accumulator dev).length + i - 1)
        = (accumulator dev ++ data).take ((accumulator dev).length + i - 1) := by
      have e : ∀ d : List Nat, (accumulator dev ++ d).take ((accumulator dev).length + i - 1)
          = ((accumulator dev ++ d).take ((accumulator dev).length + (i + 1))).take
              ((accumulator dev).length + i - 1) := by
        intro d
        rw [List.take_take, Nat.min_eq_left (by omega)]
      rw [e data1, e data, List.take_append, List.take_append, htake]
    rw [hpre]
  · intro hno
    exact ⟨_, receive_buf_no_terminator junk dev data hinv.1 hsize hno, rfl,
      by simp [accumulator], rfl⟩

theorem C2_receive_buf_consumes_up_to_first_terminator_witness :
    (∃ r, rn2483_receive_buf (some fun _ => 0) rn2483_device.zeroed [97, 13, 10, 98] = some r ∧
        r.ret = 2 + 1 ∧ r.line.isSome = true) ∧
      (∀ (junk1 : Nat → Nat) (data1 : List Nat), data1.take (2 + 1) = [97, 13, 10] →
        (accumulator rn2483_device.zeroed).length + data1.length ≤ KMALLOC_MAX_SIZE →
        rn2483_receive_buf (some junk1) rn2483_device.zeroed data1 =
          rn2483_receive_buf (some fun _ => 0) rn2483_device.zeroed [97, 13, 10, 98]) :=
  (C2_receive_buf_consumes_up_to_first_terminator (fun _ => 0) rn2483_device.zeroed
    [97, 13, 10, 98] (framerInv_of_empty _ ⟨rfl, rfl⟩).1 (by decide)).1 2 (by decide) (by decide)

/-- C10: from the initial state (no buffer, `buflen = 0`, `saw_cr = false`) and
after any sequence of calls, with any allocation outcomes, no call leaves its
buffers, `saw_cr` is set exactly when the accumulator is non-empty and ends with
CR, and `buflen` is the number of accumulated bytes.  When the next call
completes a line at chunk index `i`, then `buflen + i - 1` does not wrap
(`buflen >= 1` for `i = 0`), it is the length handed over, it is below the
`buflen + count` bytes of the buffer, and afterwards the accumulator is empty
and `saw_cr` is false. -/
theorem C10_framer_state_invariant (dev0 : rn2483_device)
    (h0 : dev0.buf = none ∧ dev0.buflen = 0 ∧ dev0.saw_cr = false)
    (calls : List (Option (Nat → Nat) × List Nat)) :
    ∃ dev out, receive_all dev0 calls = some (dev, out) ∧
      (dev.saw_cr = true ↔ accumulator dev ≠ [] ∧ (accumulator dev).getLast? = some 13) ∧
      dev.buflen = (accumulator dev).length ∧
      ∀ pool data, ∃ r, rn2483_receive_buf pool dev data = some r ∧
        ∀ sz len, r.line = some (sz, len) →
          ∃ i, r.ret = i + 1 ∧ i < data.length ∧ (i = 0 → 1 ≤ dev.buflen) ∧
            1 ≤ dev.buflen + i ∧
            (dev.buflen + i + (SIZE_MOD - 1)) % SIZE_MOD = dev.buflen + i - 1 ∧
            len = dev.buflen + i - 1 ∧ len < dev.buflen + data.length ∧
            accumulator r.dev = [] ∧ r.dev.saw_cr = false := by
  obtain ⟨hinv0, hlen0⟩ := framerInv_initial dev0 h0
  obtain ⟨dev, out, hall, hinv, hlen⟩ := receive_all_reachable calls dev0 hinv0 hlen0
  refine ⟨dev, out, hall, ?_, hlen, ?_⟩
  · rw [hinv.2]
    constructor
    · intro h
      refine ⟨?_, h⟩
      intro hnil
      rw [hnil] at h
      cases h
    · exact fun h => h.2
  · intro pool data
    obtain ⟨r, hr, _, _, hsome⟩ := receive_buf_step pool dev data hinv
    refine ⟨r, hr, ?_⟩
    intro sz len hline
    obtain ⟨hdev, hsize, i, hret, hterm, hpos, hlenv⟩ := hsome sz len hline
    have hilt := terminatorAt_lt hterm
    have hmax : KMALLOC_MAX_SIZE = 4194304 := rfl
    rw [← hlen] at hsize hpos hlenv
    refine ⟨i, hret, hilt, by omega, hpos, ?_, hlenv, by omega, ?_, ?_⟩
    · unfold SIZE_MOD
      omega
    · rw [hdev]
      simp [accumulator]
    · rw [hdev]

theorem C10_framer_state_invariant_witness :
    ∃ dev out, receive_all rn2483_device.zeroed [(some fun _ => 0, [97, 13]), (none, [10])]
        = some (dev, out) ∧
      (dev.saw_cr = true ↔ accumulator dev ≠ [] ∧ (accumulator dev).getLast? = some 13) ∧
      dev.buflen = (accumulator dev).length ∧
      ∀ pool data, ∃ r, rn2483_receive_buf pool dev data = some r ∧
        ∀ sz len, r.line = some (sz, len) →
          ∃ i, r.ret = i + 1 ∧ i < data.length ∧ (i = 0 → 1 ≤ dev.buflen) ∧
            1 ≤ dev.buflen + i ∧
            (dev.buflen + i + (SIZE_MOD - 1)) % SIZE_MOD = dev.buflen + i - 1 ∧
            len = dev.buflen + i - 1 ∧ len < dev.buflen + data.length ∧
            accumulator r.dev = [] ∧ r.dev.saw_cr = false :=
  C10_framer_state_invariant rn2483_device.zeroed ⟨rfl, rfl, rfl⟩
    [(some fun _ => 0, [97, 13]), (none, [10])]

/-! ## Command exchanges -/

theorem send_command_eq (env : Env) (p : Probe) (cmd : List Char) :
    rn2483_send_command_timeout env p cmd =
      (outcome env p.sent,
        { p with sent := p.sent + 1, written := p.written ++ wire env p.sent cmd }) := by
  unfold rn2483_send_command_timeout outcome wire
  by_cases h1 : (env.exchange p.sent).wr_cmd < 0
  · simp [h1]
  · by_cases h2 : (env.exchange p.sent).wr_crlf < 0
    · simp [h1, h2]
    · simp [h1, h2]

theorem outcome_replies {env : Env} {n : Nat} {text : List Char} (h : env.replies n text) :
    outcome env n = Except.ok text := by
  obtain ⟨h1, h2, h3⟩ := h
  simp [outcome, Int.not_lt.mpr h1, Int.not_lt.mpr h2, h3, rn2483_readline_timeout]

theorem outcome_no_reply {env : Env} {n : Nat} (h : env.no_reply n) :
    ∃ e, outcome env n = Except.error e ∧ e < 0 := by
  unfold outcome
  by_cases h1 : (env.exchange n).wr_cmd < 0
  · exact ⟨_, by simp [h1], h1⟩
  · by_cases h2 : (env.exchange n).wr_crlf < 0
    · exact ⟨_, by simp [h1, h2], h2⟩
    · rcases h with h | h | h | h
      · exact absurd h h1
      · exact absurd h h2
      · exact ⟨-ETIMEDOUT, by simp [h1, h2, h, rn2483_readline_timeout], by decide⟩
      · exact ⟨-ENOMEM, by simp [h1, h2, h, rn2483_readline_timeout], by decide⟩

theorem wire_replies {env : Env} {n : Nat} {text : List Char} (h : env.replies n text)
    (cmd : List Char) : wire env n cmd = [cmd, crlf] := by
  simp [wire, Int.not_lt.mpr h.1]

theorem commands_append_wire (ws : List (List Char)) (env : Env) (n : Nat)
    (cmd : List Char) (hcmd : cmd ≠ crlf) :
    (ws ++ wire env n cmd).filter (fun w => w ≠ crlf) = ws.filter (fun w => w ≠ crlf) ++ [cmd] := by
  unfold wire
  by_cases h : (env.exchange n).wr_cmd < 0
  · simp [h, List.filter_cons, hcmd]
  · simp [h, List.filter_cons, hcmd]

theorem mac_get_status_eq (env : Env) (p : Probe) :
    (rn2483_mac_get_status env p).2 =
      { p with sent := p.sent + 1,
               written := p.written ++ wire env p.sent "mac get status".toList } := by
  unfold rn2483_mac_get_status
  rw [send_command_eq]
  cases outcome env p.sent with
  | error e => rfl
  | ok resp =>
    simp only
    cases kstrtouint resp 16 <;> rfl

theorem mac_pause_eq (env : Env) (p : Probe) :
    (rn2483_mac_pause env p).2 =
      { p with sent := p.sent + 1,
               written := p.written ++ wire env p.sent "mac pause".toList } := by
  unfold rn2483_mac_pause
  rw [send_command_eq]
  cases outcome env p.sent with
  | error e => rfl
  | ok resp =>
    simp only
    cases kstrtouint resp 10 <;> rfl

theorem mac_resume_eq (env : Env) (p : Probe) :
    (rn2483_mac_resume env p).2 =
      { p with sent := p.sent + 1,
               written := p.written ++ wire env p.sent "mac resume".toList } := by
  unfold rn2483_mac_resume
  rw [send_command_eq]
  cases outcome env p.sent <;> rfl

/-- The four last exchanges of bring-up, as written to the transport. -/
theorem probe_status_onwards_eq (env : Env) (p : Probe) :
    probe_status_onwards env p =
      (Status.ret 0,
        { p with sent := p.sent + 4,
                 written := p.written ++ wire env p.sent "mac get status".toList ++
                   wire env (p.sent + 1) "mac pause".toList ++
                   wire env (p.sent + 2) "mac resume".toList ++
                   wire env (p.sent + 3) "mac get sync".toList }) := by
  unfold probe_status_onwards
  simp only [mac_get_status_eq, mac_pause_eq, mac_resume_eq, send_command_eq]

theorem mac_get_band_eq (env : Env) (p : Probe) :
    rn2483_mac_get_band env p =
      match outcome env p.sent with
      | Except.error ret =>
        (ret, { p with sent := p.sent + 1,
                       written := p.written ++ wire env p.sent "mac get band".toList })
      | Except.ok resp =>
        match kstrtouint resp 10 with
        | Except.error e =>
          (e, { p with sent := p.sent + 1,
                       written := p.written ++ wire env p.sent "mac get band".toList })
        | Except.ok v =>
          (0, { p with sent := p.sent + 1,
                       written := p.written ++ wire env p.sent "mac get band".toList,
                       dev := { p.dev with band := v } }) := by
  unfold rn2483_mac_get_band
  rw [send_command_eq]
  cases outcome env p.sent with
  | error e => rfl
  | ok resp => rfl

theorem mac_get_band_frame (env : Env) (p : Probe) :
    (rn2483_mac_get_band env p).2.sent = p.sent + 1 ∧
    (rn2483_mac_get_band env p).2.written = p.written ++ wire env p.sent "mac get band".toList ∧
    (rn2483_mac_get_band env p).2.gpio = p.gpio ∧
    (rn2483_mac_get_band env p).2.dev.model = p.dev.model := by
  rw [mac_get_band_eq]
  cases outcome env p.sent with
  | error e => exact ⟨rfl, rfl, rfl, rfl⟩
  | ok resp =>
    simp only
    cases kstrtouint resp 10 <;> exact ⟨rfl, rfl, rfl, rfl⟩

theorem sys_get_hweui_eq (env : Env) (p : Probe) :
    rn2483_sys_get_hweui env p =
      match outcome env p.sent with
      | Except.error ret =>
        (ret, { p with sent := p.sent + 1,
                       written := p.written ++ wire env p.sent "sys get hweui".toList })
      | Except.ok resp =>
        ((env.lora_strtoeui resp p.dev.hweui).1,
          { p with sent := p.sent + 1,
                   written := p.written ++ wire env p.sent "sys get hweui".toList,
                   dev := { p.dev with hweui := (env.lora_strtoeui resp p.dev.hweui).2 } }) := by
  unfold rn2483_sys_get_hweui
  rw [send_command_eq]
  cases outcome env p.sent <;> rfl

theorem mac_reset_band_eq (env : Env) (p : Probe) (hk : env.kasprintf_ok = true) :
    rn2483_mac_reset_band env p 433 =
      (match outcome env p.sent with
        | Except.error ret => Status.ret ret
        | Except.ok resp =>
          if resp = "ok".toList then Status.ret 0
          else if resp = "invalid_param".toList then Status.ret (-EINVAL)
          else Status.ret (-EPROTO),
        { p with sent := p.sent + 1,
                 written := p.written ++ wire env p.sent "mac reset 433".toList }) := by
  unfold rn2483_mac_reset_band
  have hcmd : "mac reset ".toList ++ Nat.toDigits 10 433 = "mac reset 433".toList := by decide
  rw [if_neg (by simp [hk]), hcmd, send_command_eq]
  cases outcome env p.sent with
  | error e => rfl
  | ok resp =>
    simp only
    split_ifs <;> rfl

/-! ## Runs of `rn2483_probe` -/

theorem kstrtoull_error_neg {s : List Char} {base : Nat} {e : Int}
    (h : kstrtoull s base = Except.error e) : e < 0 := by
  unfold kstrtoull at h
  simp only at h
  split_ifs at h
  · cases h; decide
  · cases h; decide
  · split at h
    · cases h
    · split_ifs at h
      cases h; decide

theorem kstrtouint_error_neg {s : List Char} {base : Nat} {e : Int}
    (h : kstrtouint s base = Except.error e) : e < 0 := by
  unfold kstrtouint at h
  split at h
  · next e1 h1 =>
    cases h
    exact kstrtoull_error_neg h1
  · split_ifs at h
    cases h; decide

/-- With a well-formed banner of a supported model the run goes on to read the
hardware identifier. -/
theorem probe_identified (env : Env) (m : Nat) (hs : env.started)
    (hb : env.banner_model m) (hm : m = 2483 ∨ m = 2903) :
    rn2483_probe env =
      if (rn2483_sys_get_hweui env (identified m)).1 ≠ 0 then
        probe_fail (rn2483_sys_get_hweui env (identified m)).1
          (rn2483_sys_get_hweui env (identified m)).2
      else probe_band_onwards env (rn2483_sys_get_hweui env (identified m)).2 := by
  obtain ⟨h1, h2, h3⟩ := hs
  obtain ⟨text, hline, hlen, h6, hrn, hmodel⟩ := hb
  have hlen2 : ¬ text.length < "RNxxxx X.Y.Z MMM DD YYYY HH:MM:SS".toList.length := by
    have : "RNxxxx X.Y.Z MMM DD YYYY HH:MM:SS".toList.length = 33 := by decide
    omega
  have hcond : ¬ (text.length < "RNxxxx X.Y.Z MMM DD YYYY HH:MM:SS".toList.length ∨
      text[6]? ≠ some ' ' ∨ text.take 2 ≠ "RN".toList) := by
    rintro (h | h | h)
    · exact hlen2 h
    · exact h h6
    · exact h hrn
  unfold rn2483_probe
  simp only [h1, h2, h3, hline, rn2483_readline_timeout, if_neg hcond, hmodel]
  simp only [Bool.true_eq_false, if_false, ne_eq, not_true_eq_false, hm]
  rfl

/-- Without a well-formed banner of a supported model the run fails before any
command is written. -/
theorem probe_not_identified (env : Env) (hs : env.started)
    (h2483 : ¬ env.banner_model 2483) (h2903 : ¬ env.banner_model 2903) :
    ∃ e, e ≠ 0 ∧ (rn2483_probe env).1 = Status.ret e ∧ (rn2483_probe env).2.written = [] := by
  obtain ⟨h1, h2, h3⟩ := hs
  unfold rn2483_probe
  simp only [h1, h2, h3]
  simp only [Bool.true_eq_false, if_false, ne_eq, not_true_eq_false]
  cases hban : env.banner with
  | timeout => exact ⟨-ETIMEDOUT, by decide, rfl, rfl⟩
  | nomem => exact ⟨-ENOMEM, by decide, rfl, rfl⟩
  | line text =>
    simp only [rn2483_readline_timeout]
    split_ifs with hcond
    · exact ⟨-EINVAL, by decide, rfl, rfl⟩
    · cases hk : kstrtouint ((text.drop 2).take 4) 10 with
      | error e =>
        exact ⟨e, Int.ne_of_lt (kstrtouint_error_neg hk), rfl, rfl⟩
      | ok model =>
        simp only
        have hlen : "RNxxxx X.Y.Z MMM DD YYYY HH:MM:SS".toList.length = 33 := by decide
        rw [hlen] at hcond
        push_neg at hcond
        have hbm : env.banner_model model :=
          ⟨text, hban, by omega, hcond.2.1, hcond.2.2, hk⟩
        have hne : ¬ (model = 2483 ∨ model = 2903) := by
          rintro (h | h)
          · exact h2483 (h ▸ hbm)
          · exact h2903 (h ▸ hbm)
        rw [if_pos hne]
        exact ⟨-ENOTSUPP, by decide, rfl, rfl⟩

theorem hweui_read_eq (env : Env) (m : Nat) (hh : env.hweui_read) :
    ∃ v, rn2483_sys_get_hweui env (identified m) =
      (0, { dev := { rn2483_device.zeroed with model := m, hweui := v },
            written := ["sys get hweui".toList, crlf], gpio := [0, 1], sent := 1 }) := by
  obtain ⟨text, hrep, hret⟩ := hh
  refine ⟨(env.lora_strtoeui text 0).2, ?_⟩
  rw [sys_get_hweui_eq]
  have h0 : (identified m).sent = 0 := rfl
  rw [h0, outcome_replies hrep, wire_replies hrep]
  have hd : (identified m).dev.hweui = 0 := rfl
  simp only [hd, hret]
  rfl

theorem sys_get_hweui_frame (env : Env) (p : Probe) :
    (rn2483_sys_get_hweui env p).2.sent = p.sent + 1 ∧
    (rn2483_sys_get_hweui env p).2.written = p.written ++ wire env p.sent "sys get hweui".toList ∧
    (rn2483_sys_get_hweui env p).2.dev.model = p.dev.model := by
  rw [sys_get_hweui_eq]
  cases outcome env p.sent <;> exact ⟨rfl, rfl, rfl⟩

theorem mac_reset_band_frame (env : Env) (p : Probe) :
    (rn2483_mac_reset_band env p 433).2.dev = p.dev ∧
    ∃ ext, (rn2483_mac_reset_band env p 433).2.written = p.written ++ ext := by
  by_cases hk : env.kasprintf_ok = true
  · rw [mac_reset_band_eq env p hk]
    exact ⟨rfl, _, rfl⟩
  · unfold rn2483_mac_reset_band
    rw [if_pos (by simpa using hk)]
    exact ⟨rfl, [], by simp⟩

theorem probe_band_onwards_frame (env : Env) (p : Probe) :
    (probe_band_onwards env p).2.dev.model = p.dev.model ∧
    (p.dev.model = 2483 → ∃ ext, (probe_band_onwards env p).2.written =
      p.written ++ wire env p.sent "mac get band".toList ++ ext) := by
  unfold probe_band_onwards
  by_cases hm : p.dev.model = 2483
  · rw [if_pos hm]
    obtain ⟨_, hw1, _, hm1⟩ := mac_get_band_frame env p
    generalize rn2483_mac_get_band env p = r1 at hw1 hm1
    obtain ⟨ret, p1⟩ := r1
    simp only at hw1 hm1 ⊢
    by_cases hret : ret ≠ 0
    · rw [if_pos hret]
      exact ⟨hm1, fun _ => ⟨[], by simp [probe_fail, hw1]⟩⟩
    · rw [if_neg hret]
      obtain ⟨hd2, ext2, hw2⟩ := mac_reset_band_frame env p1
      generalize rn2483_mac_reset_band env p1 433 = r2 at hd2 hw2
      obtain ⟨st, p2⟩ := r2
      simp only at hd2 hw2
      cases st with
      | oops =>
        simp only
        exact ⟨by rw [hd2, hm1], fun _ => ⟨ext2, by rw [hw2, hw1]⟩⟩
      | ret ret2 =>
        simp only
        by_cases hret2 : ret2 ≠ 0
        · rw [if_pos hret2]
          exact ⟨by simp [probe_fail, hd2, hm1], fun _ => ⟨ext2, by simp [probe_fail, hw2, hw1]⟩⟩
        · rw [if_neg hret2, probe_status_onwards_eq]
          obtain ⟨_, hw3, _, hm3⟩ :=
            mac_get_band_frame env { p2 with dev := { p2.dev with band := 433 } }
          simp only at hw3 hm3 ⊢
          refine ⟨by rw [hm3, hd2, hm1], fun _ => ?_⟩
          rw [hw3, hw2, hw1]
          simp only [List.append_assoc]
          exact ⟨_, rfl⟩
  · rw [if_neg hm]
    refine ⟨?_, fun h => absurd h hm⟩
    split_ifs <;> rw [probe_status_onwards_eq]

theorem mem_wire {env : Env} {n : Nat} {cmd w : List Char} (h : w ∈ wire env n cmd) :
    w = cmd ∨ w = crlf := by
  unfold wire at h
  split_ifs at h
  · simp at h; exact Or.inl h
  · simp at h; exact h

theorem banner_model_2483 (env : Env) (text : List Char) (hb : env.banner = Reply.line text)
    (hlen : 33 ≤ text.length) (hrn : text.take 7 = "RN2483 ".toList) :
    env.banner_model 2483 := by
  have hsplit : text = "RN2483 ".toList ++ text.drop 7 := by
    rw [← hrn, List.take_append_drop]
  generalize text.drop 7 = rest at hsplit
  subst hsplit
  refine ⟨_, hb, hlen, by simp, by simp, ?_⟩
  have : (("RN2483 ".toList ++ rest).drop 2).take 4 = "2483".toList := by simp
  rw [this]
  decide

theorem filter_wire (env : Env) (n : Nat) (cmd : List Char) (hcmd : cmd ≠ crlf) :
    (wire env n cmd).filter (fun w => w ≠ crlf) = [cmd] := by
  have := commands_append_wire [] env n cmd hcmd
  simpa using this

/-- A run with model 2903 and a successful identifier read: no band exchange,
band 915, then the four last exchanges, and 0 is returned. -/
theorem probe_run_2903 (env : Env) (hs : env.started) (hb : env.banner_model 2903)
    (hh : env.hweui_read) :
    ∃ v, rn2483_probe env =
      (Status.ret 0,
        { dev := { rn2483_device.zeroed with model := 2903, hweui := v, band := 915 },
          written := ["sys get hweui".toList, crlf] ++ wire env 1 "mac get status".toList ++
            wire env 2 "mac pause".toList ++ wire env 3 "mac resume".toList ++
            wire env 4 "mac get sync".toList,
          gpio := [0, 1], sent := 5 }) := by
  obtain ⟨v, hv⟩ := hweui_read_eq env 2903 hh
  refine ⟨v, ?_⟩
  rw [probe_identified env 2903 hs hb (Or.inr rfl), hv]
  simp only [ne_eq, not_true_eq_false, if_false]
  unfold probe_band_onwards
  rw [if_neg (by simp), if_pos rfl, probe_status_onwards_eq]

theorem commands_run_2903 (env : Env) (ws : List (List Char))
    (h : ws = ["sys get hweui".toList, crlf] ++ wire env 1 "mac get status".toList ++
            wire env 2 "mac pause".toList ++ wire env 3 "mac resume".toList ++
            wire env 4 "mac get sync".toList) :
    ws.filter (fun w => w ≠ crlf) =
      ["sys get hweui".toList, "mac get status".toList, "mac pause".toList,
        "mac resume".toList, "mac get sync".toList] := by
  subst h
  rw [commands_append_wire _ env 4 _ (by decide), commands_append_wire _ env 3 _ (by decide),
    commands_append_wire _ env 2 _ (by decide), commands_append_wire _ env 1 _ (by decide)]
  decide

/-- A run with model 2483 in which the first `mac get band` fails. -/
theorem probe_run_get_band_fails (env : Env) (hs : env.started) (hb : env.banner_model 2483)
    (hh : env.hweui_read) (hf : env.band_fails 1) :
    ∃ e, e ≠ 0 ∧ (rn2483_probe env).1 = Status.ret e ∧
      commands (rn2483_probe env).2 = ["sys get hweui".toList, "mac get band".toList] := by
  obtain ⟨v, hv⟩ := hweui_read_eq env 2483 hh
  rw [probe_identified env 2483 hs hb (Or.inl rfl), hv]
  simp only [ne_eq, not_true_eq_false, if_false]
  unfold probe_band_onwards
  rw [if_pos rfl, mac_get_band_eq]
  have hcmds : (["sys get hweui".toList, crlf] ++ wire env 1 "mac get band".toList).filter
      (fun w => w ≠ crlf) = ["sys get hweui".toList, "mac get band".toList] := by
    rw [commands_append_wire _ env 1 _ (by decide)]
    decide
  rcases hf with hno | ⟨text, e, hrep, hparse⟩
  · obtain ⟨e, he, hneg⟩ := outcome_no_reply hno
    simp only [he, if_pos (Int.ne_of_lt hneg)]
    exact ⟨e, Int.ne_of_lt hneg, rfl, hcmds⟩
  · have hneg := kstrtouint_error_neg hparse
    simp only [outcome_replies hrep, hparse, if_pos (Int.ne_of_lt hneg)]
    exact ⟨e, Int.ne_of_lt hneg, rfl, hcmds⟩

/-- A run in which the identifier read fails. -/
theorem probe_run_hweui_fails (env : Env) (m : Nat) (hs : env.started)
    (hb : env.banner_model m) (hm : m = 2483 ∨ m = 2903) (hf : env.hweui_fails) :
    ∃ e, e ≠ 0 ∧ (rn2483_probe env).1 = Status.ret e ∧
      commands (rn2483_probe env).2 = ["sys get hweui".toList] := by
  rw [probe_identified env m hs hb hm, sys_get_hweui_eq]
  have h0 : (identified m).sent = 0 := rfl
  have hw : (identified m).written = [] := rfl
  have hd : (identified m).dev.hweui = 0 := rfl
  rw [h0, hw, hd]
  have hcmds : ([] ++ wire env 0 "sys get hweui".toList).filter
      (fun w => w ≠ crlf) = ["sys get hweui".toList] := by
    rw [commands_append_wire _ env 0 _ (by decide)]
    rfl
  rcases hf with hno | ⟨text, hrep, hrej⟩
  · obtain ⟨e, he, hneg⟩ := outcome_no_reply hno
    simp only [he, if_pos (Int.ne_of_lt hneg)]
    exact ⟨e, Int.ne_of_lt hneg, rfl, hcmds⟩
  · simp only [outcome_replies hrep, if_pos hrej]
    exact ⟨_, hrej, rfl, hcmds⟩

/-- A run with model 2483 up to the band reset: identifier and first band read
succeed and the reset command is formatted. -/
theorem probe_run_to_reset (env : Env) (hs : env.started) (hb : env.banner_model 2483)
    (hh : env.hweui_read) (hband : env.band_read 1) (hk : env.kasprintf_ok = true) :
    ∃ v vb, rn2483_probe env =
      match (match outcome env 2 with
        | Except.error ret => Status.ret ret
        | Except.ok resp =>
          if resp = "ok".toList then Status.ret 0
          else if resp = "invalid_param".toList then Status.ret (-EINVAL)
          else Status.ret (-EPROTO),
        ({ dev := { rn2483_device.zeroed with model := 2483, hweui := v, band := vb },
           written := ["sys get hweui".toList, crlf] ++ ["mac get band".toList, crlf] ++
             wire env 2 "mac reset 433".toList,
           gpio := [0, 1], sent := 3 } : Probe)) with
      | (Status.oops, p2) => (Status.oops, p2)
      | (Status.ret ret2, p2) =>
        if ret2 ≠ 0 then probe_fail ret2 p2
        else
          probe_status_onwards env
            (rn2483_mac_get_band env { p2 with dev := { p2.dev with band := 433 } }).2 := by
  obtain ⟨v, hv⟩ := hweui_read_eq env 2483 hh
  obtain ⟨text, vb, hrep, hparse⟩ := hband
  refine ⟨v, vb, ?_⟩
  rw [probe_identified env 2483 hs hb (Or.inl rfl), hv]
  simp only [ne_eq, not_true_eq_false, if_false]
  unfold probe_band_onwards
  rw [if_pos rfl, mac_get_band_eq]
  simp only [outcome_replies hrep, hparse, wire_replies hrep, ne_eq, not_true_eq_false, if_false]
  rw [mac_reset_band_eq env _ hk]

theorem commands_three (env : Env) :
    (["sys get hweui".toList, crlf] ++ ["mac get band".toList, crlf] ++
      wire env 2 "mac reset 433".toList).filter (fun w => w ≠ crlf) =
      ["sys get hweui".toList, "mac get band".toList, "mac reset 433".toList] := by
  rw [commands_append_wire _ env 2 _ (by decide)]
  decide

/-- A run with model 2483 in which the band reset gets no reply line. -/
theorem probe_run_reset_no_reply (env : Env) (hs : env.started)
    (hb : env.banner_model 2483) (hh : env.hweui_read) (hband : env.band_read 1)
    (hk : env.kasprintf_ok = true) (hf : env.no_reply 2) :
    ∃ e, e ≠ 0 ∧ (rn2483_probe env).1 = Status.ret e ∧
      commands (rn2483_probe env).2 =
        ["sys get hweui".toList, "mac get band".toList, "mac reset 433".toList] := by
  obtain ⟨v, vb, hrun⟩ := probe_run_to_reset env hs hb hh hband hk
  obtain ⟨e, he, hneg⟩ := outcome_no_reply hf
  rw [hrun]
  simp only [he, if_pos (Int.ne_of_lt hneg)]
  exact ⟨e, Int.ne_of_lt hneg, rfl, commands_three env⟩

/-- A run with model 2483 in which the band reset is answered by a line other
than `ok`. -/
theorem probe_run_reset_rejected (env : Env) (r : List Char) (hs : env.started)
    (hb : env.banner_model 2483) (hh : env.hweui_read) (hband : env.band_read 1)
    (hk : env.kasprintf_ok = true) (hr : env.replies 2 r) (hnok : r ≠ "ok".toList) :
    (rn2483_probe env).1 =
        Status.ret (if r = "invalid_param".toList then -EINVAL else -EPROTO) ∧
      commands (rn2483_probe env).2 =
        ["sys get hweui".toList, "mac get band".toList, "mac reset 433".toList] := by
  obtain ⟨v, vb, hrun⟩ := probe_run_to_reset env hs hb hh hband hk
  rw [hrun]
  simp only [outcome_replies hr, if_neg hnok]
  by_cases hinv : r = "invalid_param".toList
  · simp only [if_pos hinv]
    rw [if_pos (by decide)]
    exact ⟨rfl, commands_three env⟩
  · simp only [if_neg hinv]
    rw [if_pos (by decide)]
    exact ⟨rfl, commands_three env⟩

/-- A run with model 2483 in which the band reset is answered by `ok`: the
second band read and the four last exchanges follow, whatever they meet, and 0
is returned. -/
theorem probe_run_reset_ok (env : Env) (hs : env.started)
    (hb : env.banner_model 2483) (hh : env.hweui_read) (hband : env.band_read 1)
    (hk : env.kasprintf_ok = true) (hr : env.replies 2 "ok".toList) :
    (rn2483_probe env).1 = Status.ret 0 ∧
      commands (rn2483_probe env).2 =
        ["sys get hweui".toList, "mac get band".toList, "mac reset 433".toList,
          "mac get band".toList, "mac get status".toList, "mac pause".toList,
          "mac resume".toList, "mac get sync".toList] := by
  obtain ⟨v, vb, hrun⟩ := probe_run_to_reset env hs hb hh hband hk
  rw [hrun]
  simp only [outcome_replies hr, if_true, ne_eq, not_true_eq_false, if_false]
  rw [probe_status_onwards_eq]
  obtain ⟨hs3, hw3, _, _⟩ := mac_get_band_frame env
    { dev := { rn2483_device.zeroed with model := 2483, hweui := v, band := 433 },
      written := ["sys get hweui".toList, crlf] ++ ["mac get band".toList, crlf] ++
        wire env 2 "mac reset 433".toList,
      gpio := [0, 1], sent := 3 }
  refine ⟨rfl, ?_⟩
  unfold commands
  simp only at hs3 hw3 ⊢
  rw [hw3, hs3]
  rw [commands_append_wire _ env _ _ (by decide), commands_append_wire _ env _ _ (by decide),
    commands_append_wire _ env _ _ (by decide), commands_append_wire _ env _ _ (by decide),
    commands_append_wire _ env _ _ (by decide), commands_three]
  rfl

/-! ## Claims about bring-up -/

/-- C4 (what the code does): a banner that is too short makes `rn2483_probe`
return `-EINVAL`, not `-EPROTO`. -/
theorem C4_short_banner_is_einval :
    (rn2483_probe env_short_banner).1 = Status.ret (-EINVAL) ∧
      (rn2483_probe env_short_banner).1 ≠ Status.ret (-EPROTO) ∧
      (rn2483_probe env_short_banner).2.written = [] := by
  decide

/-- C4 (amended): when the first line received as banner is shorter than the
33-character template, or does not begin with `RN`, or has no space at offset
6, `rn2483_probe` returns `-EINVAL` and has written nothing to the transport. -/
theorem C4_malformed_banner_fails (env : Env) (text : List Char)
    (hs : env.started) (hb : env.banner = Reply.line text)
    (hbad : text.length < 33 ∨ text.take 2 ≠ "RN".toList ∨ text[6]? ≠ some ' ') :
    (rn2483_probe env).1 = Status.ret (-EINVAL) ∧ (rn2483_probe env).2.written = [] := by
  obtain ⟨h1, h2, h3⟩ := hs
  have hlen : "RNxxxx X.Y.Z MMM DD YYYY HH:MM:SS".toList.length = 33 := by decide
  have hcond : text.length < "RNxxxx X.Y.Z MMM DD YYYY HH:MM:SS".toList.length ∨
      text[6]? ≠ some ' ' ∨ text.take 2 ≠ "RN".toList := by
    rw [hlen]
    rcases hbad with h | h | h
    · exact Or.inl h
    · exact Or.inr (Or.inr h)
    · exact Or.inr (Or.inl h)
  unfold rn2483_probe
  simp only [h1, h2, h3, hb, rn2483_readline_timeout, if_pos hcond]
  exact ⟨rfl, rfl⟩

theorem C4_malformed_banner_fails_witness :
    (rn2483_probe env_short_banner).1 = Status.ret (-EINVAL) ∧
      (rn2483_probe env_short_banner).2.written = [] :=
  C4_malformed_banner_fails env_short_banner "RN2483".toList ⟨rfl, rfl, rfl⟩ rfl
    (Or.inl (by decide))

/-- C5: for every banner line of at least 33 characters that begins with
`RN2483` and a space, `rn2483_probe` leaves the model code 2483 in the device,
and when `sys get hweui` is answered by a line that parses, the next buffer
passed to the transport is `mac get band`, followed by CR LF once the
transport has accepted the command. -/
theorem C5_banner_2483_selects_variant_a (env : Env) (text : List Char)
    (hs : env.started) (hb : env.banner = Reply.line text)
    (hlen : 33 ≤ text.length) (hrn : text.take 7 = "RN2483 ".toList) :
    (rn2483_probe env).2.dev.model = 2483 ∧
    (env.hweui_read →
      (rn2483_probe env).2.written.take 3 =
        ["sys get hweui".toList, crlf, "mac get band".toList] ∧
      (0 ≤ (env.exchange 1).wr_cmd →
        (rn2483_probe env).2.written.take 4 =
          ["sys get hweui".toList, crlf, "mac get band".toList, crlf])) := by
  have hbm := banner_model_2483 env text hb hlen hrn
  rw [probe_identified env 2483 hs hbm (Or.inl rfl)]
  refine ⟨?_, ?_⟩
  · obtain ⟨_, _, hm⟩ := sys_get_hweui_frame env (identified 2483)
    split_ifs
    · exact hm
    · rw [(probe_band_onwards_frame env _).1, hm]
      rfl
  · intro hh
    obtain ⟨v, hv⟩ := hweui_read_eq env 2483 hh
    rw [hv]
    simp only [ne_eq, not_true_eq_false, if_false]
    obtain ⟨ext, hext⟩ := (probe_band_onwards_frame env
      { dev := { rn2483_device.zeroed with model := 2483, hweui := v },
        written := ["sys get hweui".toList, crlf], gpio := [0, 1], sent := 1 }).2 rfl
    rw [hext]
    simp only
    refine ⟨?_, ?_⟩
    · simp [wire]
    · intro hw
      simp [wire, Int.not_lt.mpr hw]

theorem C5_banner_2483_selects_variant_a_witness :
    (rn2483_probe env_second_get_band_times_out).2.dev.model = 2483 ∧
      (rn2483_probe env_second_get_band_times_out).2.written.take 3 =
        ["sys get hweui".toList, crlf, "mac get band".toList] ∧
      (rn2483_probe env_second_get_band_times_out).2.written.take 4 =
        ["sys get hweui".toList, crlf, "mac get band".toList, crlf] :=
  have h := C5_banner_2483_selects_variant_a env_second_get_band_times_out banner_2483
    ⟨rfl, rfl, rfl⟩ rfl (by decide) (by decide)
  have hh : env_second_get_band_times_out.hweui_read :=
    ⟨"0004A30B001A2B3C".toList, ⟨by decide, by decide, rfl⟩, rfl⟩
  ⟨h.1, (h.2 hh).1, (h.2 hh).2 (by decide)⟩

/-- C6: in every run whose banner yields model code 2903 and whose hardware
identifier read succeeds, whatever the later exchanges meet, `rn2483_probe`
returns (with 0), the band field is 915, the commands issued are exactly
`sys get hweui`, `mac get status`, `mac pause`, `mac resume`, `mac get sync`, and
no buffer written is `mac get band` or begins with `mac reset`. -/
theorem C6_model_2903_band_915_without_exchange (env : Env)
    (hs : env.started) (hb : env.banner_model 2903) (hh : env.hweui_read) :
    (rn2483_probe env).1 = Status.ret 0 ∧
    (rn2483_probe env).2.dev.band = 915 ∧
    commands (rn2483_probe env).2 =
      ["sys get hweui".toList, "mac get status".toList, "mac pause".toList,
        "mac resume".toList, "mac get sync".toList] ∧
    ∀ w ∈ (rn2483_probe env).2.written,
      w ≠ "mac get band".toList ∧ w.take 9 ≠ "mac reset".toList := by
  obtain ⟨v, hv⟩ := probe_run_2903 env hs hb hh
  rw [hv]
  refine ⟨rfl, rfl, commands_run_2903 env _ rfl, ?_⟩
  intro w hw
  simp only [List.mem_append] at hw
  have hcases : w = "sys get hweui".toList ∨ w = crlf ∨ w = "mac get status".toList ∨
      w = "mac pause".toList ∨ w = "mac resume".toList ∨ w = "mac get sync".toList := by
    rcases hw with (((hw | hw) | hw) | hw) | hw
    · simp at hw
      rcases hw with hw | hw
      · exact Or.inl (by rw [hw]; rfl)
      · exact Or.inr (Or.inl (by rw [hw]))
    · rcases mem_wire hw with h | h
      · exact Or.inr (Or.inr (Or.inl h))
      · exact Or.inr (Or.inl h)
    · rcases mem_wire hw with h | h
      · exact Or.inr (Or.inr (Or.inr (Or.inl h)))
      · exact Or.inr (Or.inl h)
    · rcases mem_wire hw with h | h
      · exact Or.inr (Or.inr (Or.inr (Or.inr (Or.inl h))))
      · exact Or.inr (Or.inl h)
    · rcases mem_wire hw with h | h
      · exact Or.inr (Or.inr (Or.inr (Or.inr (Or.inr h))))
      · exact Or.inr (Or.inl h)
  rcases hcases with h | h | h | h | h | h <;> subst h <;> decide

theorem C6_model_2903_band_915_without_exchange_witness :
    (rn2483_probe env_2903).1 = Status.ret 0 ∧
    (rn2483_probe env_2903).2.dev.band = 915 ∧
    commands (rn2483_probe env_2903).2 =
      ["sys get hweui".toList, "mac get status".toList, "mac pause".toList,
        "mac resume".toList, "mac get sync".toList] ∧
    ∀ w ∈ (rn2483_probe env_2903).2.written,
      w ≠ "mac get band".toList ∧ w.take 9 ≠ "mac reset".toList :=
  C6_model_2903_band_915_without_exchange env_2903 ⟨rfl, rfl, rfl⟩
    ⟨"RN2903 0.9.8 Feb 14 2017 20:17:03".toList, rfl, by decide, by decide, by decide, by decide⟩
    ⟨"0004A30B001A2B3C".toList, ⟨by decide, by decide, rfl⟩, rfl⟩

theorem reset_band_step (env : Env) (p : Probe) (r : List Char)
    (hk : env.kasprintf_ok = true) (hp : p.sent = 2) (hr : env.replies 2 r) :
    (rn2483_mac_reset_band env p 433).1 =
      if r = "ok".toList then Status.ret 0
      else if r = "invalid_param".toList then Status.ret (-EINVAL)
      else Status.ret (-EPROTO) := by
  rw [mac_reset_band_eq env p hk, hp, outcome_replies hr]

/-- C7: in a run with model 2483 whose banner, identifier read and first
`mac get band` succeeded, the reply `r` to `mac reset 433` decides: for `ok` the
reset step returns 0 and bring-up goes on to the end; for `invalid_param` the
step and `rn2483_probe` return `-EINVAL`; for any other line they return
`-EPROTO`; and in both failing cases `mac reset 433` is the last command issued. -/
theorem C7_reset_reply_decides (env : Env) (r : List Char)
    (hs : env.started) (hb : env.banner_model 2483) (hh : env.hweui_read)
    (hband : env.band_read 1) (hk : env.kasprintf_ok = true) (hr : env.replies 2 r) :
    (r = "ok".toList →
      (∀ p, p.sent = 2 → (rn2483_mac_reset_band env p 433).1 = Status.ret 0) ∧
      (rn2483_probe env).1 = Status.ret 0 ∧
      commands (rn2483_probe env).2 =
        ["sys get hweui".toList, "mac get band".toList, "mac reset 433".toList,
          "mac get band".toList, "mac get status".toList, "mac pause".toList,
          "mac resume".toList, "mac get sync".toList]) ∧
    (r = "invalid_param".toList →
      (∀ p, p.sent = 2 → (rn2483_mac_reset_band env p 433).1 = Status.ret (-EINVAL)) ∧
      (rn2483_probe env).1 = Status.ret (-EINVAL) ∧
      commands (rn2483_probe env).2 =
        ["sys get hweui".toList, "mac get band".toList, "mac reset 433".toList]) ∧
    (r ≠ "ok".toList → r ≠ "invalid_param".toList →
      (∀ p, p.sent = 2 → (rn2483_mac_reset_band env p 433).1 = Status.ret (-EPROTO)) ∧
      (rn2483_probe env).1 = Status.ret (-EPROTO) ∧
      commands (rn2483_probe env).2 =
        ["sys get hweui".toList, "mac get band".toList, "mac reset 433".toList]) := by
  refine ⟨?_, ?_, ?_⟩
  · intro hok
    subst hok
    refine ⟨fun p hp => ?_, probe_run_reset_ok env hs hb hh hband hk hr⟩
    rw [reset_band_step env p _ hk hp hr, if_pos rfl]
  · intro hinv
    subst hinv
    have hrej := probe_run_reset_rejected env _ hs hb hh hband hk hr (by decide)
    rw [if_pos rfl] at hrej
    refine ⟨fun p hp => ?_, hrej⟩
    rw [reset_band_step env p _ hk hp hr, if_neg (by decide), if_pos rfl]
  · intro hnok hninv
    have hrej := probe_run_reset_rejected env r hs hb hh hband hk hr hnok
    rw [if_neg hninv] at hrej
    refine ⟨fun p hp => ?_, hrej⟩
    rw [reset_band_step env p r hk hp hr, if_neg hnok, if_neg hninv]

theorem C7_reset_reply_decides_witness :
    (∀ p, p.sent = 2 →
      (rn2483_mac_reset_band
        (env_2483 (Reply.line "868".toList) (Reply.line "invalid_param".toList)) p 433).1 =
        Status.ret (-EINVAL)) ∧
    (rn2483_probe (env_2483 (Reply.line "868".toList) (Reply.line "invalid_param".toList))).1 =
      Status.ret (-EINVAL) ∧
    commands
      (rn2483_probe (env_2483 (Reply.line "868".toList) (Reply.line "invalid_param".toList))).2 =
        ["sys get hweui".toList, "mac get band".toList, "mac reset 433".toList] :=
  (C7_reset_reply_decides (env_2483 (Reply.line "868".toList) (Reply.line "invalid_param".toList))
    "invalid_param".toList ⟨rfl, rfl, rfl⟩
    ⟨banner_2483, rfl, by decide, by decide, by decide, by decide⟩
    ⟨"0004A30B001A2B3C".toList, ⟨by decide, by decide, rfl⟩, rfl⟩
    ⟨"868".toList, 868, ⟨by decide, by decide, rfl⟩, by decide⟩ rfl
    ⟨by decide, by decide, rfl⟩).2.1 rfl

/-- C8 (what the code does): when everything up to `mac reset 433` succeeds and
the confirming second `mac get band` times out, `rn2483_probe` returns 0 and
goes on to issue `mac get status` and the later commands. -/
theorem C8_second_get_band_failure_not_fatal :
    (env_second_get_band_times_out.exchange 3).reply = Reply.timeout ∧
      (rn2483_probe env_second_get_band_times_out).1 = Status.ret 0 ∧
      commands (rn2483_probe env_second_get_band_times_out).2 =
        ["sys get hweui".toList, "mac get band".toList, "mac reset 433".toList,
          "mac get band".toList, "mac get status".toList, "mac pause".toList,
          "mac resume".toList, "mac get sync".toList] := by
  decide

/-- C8 (amended): a failure of the banner wait or of the model identification,
of the `sys get hweui` read, of the first `mac get band` or of `mac reset 433`
(by timeout, write error or a reply that does not parse or is not `ok`) makes
`rn2483_probe` return a non-zero error with the failing step's command as the
last one issued.  A failure of the confirming second `mac get band` is not
fatal: bring-up goes on and returns 0. -/
theorem C8_identity_failures_fatal (env : Env) (hs : env.started) :
    (¬ env.banner_model 2483 → ¬ env.banner_model 2903 →
      ∃ e, e ≠ 0 ∧ (rn2483_probe env).1 = Status.ret e ∧ commands (rn2483_probe env).2 = []) ∧
    (∀ m, m = 2483 ∨ m = 2903 → env.banner_model m → env.hweui_fails →
      ∃ e, e ≠ 0 ∧ (rn2483_probe env).1 = Status.ret e ∧
        commands (rn2483_probe env).2 = ["sys get hweui".toList]) ∧
    (env.banner_model 2483 → env.hweui_read → env.band_fails 1 →
      ∃ e, e ≠ 0 ∧ (rn2483_probe env).1 = Status.ret e ∧
        commands (rn2483_probe env).2 = ["sys get hweui".toList, "mac get band".toList]) ∧
    (env.banner_model 2483 → env.hweui_read → env.band_read 1 → env.kasprintf_ok = true →
      (env.no_reply 2 ∨ ∃ r, env.replies 2 r ∧ r ≠ "ok".toList) →
      ∃ e, e ≠ 0 ∧ (rn2483_probe env).1 = Status.ret e ∧
        commands (rn2483_probe env).2 =
          ["sys get hweui".toList, "mac get band".toList, "mac reset 433".toList]) ∧
    (env.banner_model 2483 → env.hweui_read → env.band_read 1 → env.kasprintf_ok = true →
      env.replies 2 "ok".toList → env.band_fails 3 →
      (rn2483_probe env).1 = Status.ret 0 ∧
        commands (rn2483_probe env).2 =
          ["sys get hweui".toList, "mac get band".toList, "mac reset 433".toList,
            "mac get band".toList, "mac get status".toList, "mac pause".toList,
            "mac resume".toList, "mac get sync".toList]) := by
  refine ⟨?_, ?_, ?_, ?_, ?_⟩
  · intro h1 h2
    obtain ⟨e, he, hret, hw⟩ := probe_not_identified env hs h1 h2
    exact ⟨e, he, hret, by simp [commands, hw]⟩
  · intro m hm hb hf
    exact probe_run_hweui_fails env m hs hb hm hf
  · intro hb hh hf
    exact probe_run_get_band_fails env hs hb hh hf
  · intro hb hh hband hk hf
    rcases hf with hno | ⟨r, hr, hnok⟩
    · exact probe_run_reset_no_reply env hs hb hh hband hk hno
    · obtain ⟨hret, hcmd⟩ := probe_run_reset_rejected env r hs hb hh hband hk hr hnok
      refine ⟨_, ?_, hret, hcmd⟩
      split_ifs <;> decide
  · intro hb hh hband hk hr _
    exact probe_run_reset_ok env hs hb hh hband hk hr

theorem C8_identity_failures_fatal_witness :
    ∃ e, e ≠ 0 ∧
      (rn2483_probe (env_2483 (Reply.line "eight".toList) Reply.timeout)).1 = Status.ret e ∧
      commands (rn2483_probe (env_2483 (Reply.line "eight".toList) Reply.timeout)).2 =
        ["sys get hweui".toList, "mac get band".toList] :=
  (C8_identity_failures_fatal (env_2483 (Reply.line "eight".toList) Reply.timeout)
    ⟨rfl, rfl, rfl⟩).2.2.1
    ⟨banner_2483, rfl, by decide, by decide, by decide, by decide⟩
    ⟨"0004A30B001A2B3C".toList, ⟨by decide, by decide, rfl⟩, rfl⟩
    (Or.inr ⟨"eight".toList, -EINVAL, ⟨by decide, by decide, rfl⟩, by decide⟩)

/-- C9: once band configuration is complete (well-formed banner of a supported
model, identifier read, and for model 2483 the first `mac get band` and
`mac reset 433` succeeded), `rn2483_probe` returns 0 whatever `mac get status`,
`mac pause`, `mac resume` and `mac get sync` meet, and each of the four is
issued exactly once, in this order. -/
theorem C9_last_steps_best_effort (env : Env) (hs : env.started) (hh : env.hweui_read) :
    (env.banner_model 2903 →
      (rn2483_probe env).1 = Status.ret 0 ∧
        commands (rn2483_probe env).2 =
          ["sys get hweui".toList, "mac get status".toList, "mac pause".toList,
            "mac resume".toList, "mac get sync".toList]) ∧
    (env.banner_model 2483 → env.band_read 1 → env.kasprintf_ok = true →
      env.replies 2 "ok".toList →
      (rn2483_probe env).1 = Status.ret 0 ∧
        commands (rn2483_probe env).2 =
          ["sys get hweui".toList, "mac get band".toList, "mac reset 433".toList,
            "mac get band".toList, "mac get status".toList, "mac pause".toList,
            "mac resume".toList, "mac get sync".toList]) := by
  refine ⟨?_, ?_⟩
  · intro hb
    obtain ⟨v, hv⟩ := probe_run_2903 env hs hb hh
    rw [hv]
    exact ⟨rfl, commands_run_2903 env _ rfl⟩
  · intro hb hband hk hr
    exact probe_run_reset_ok env hs hb hh hband hk hr

theorem C9_last_steps_best_effort_witness :
    (rn2483_probe (env_2483 (Reply.line "868".toList) (Reply.line "ok".toList))).1 =
        Status.ret 0 ∧
      commands (rn2483_probe (env_2483 (Reply.line "868".toList) (Reply.line "ok".toList))).2 =
        ["sys get hweui".toList, "mac get band".toList, "mac reset 433".toList,
          "mac get band".toList, "mac get status".toList, "mac pause".toList,
          "mac resume".toList, "mac get sync".toList] :=
  (C9_last_steps_best_effort (env_2483 (Reply.line "868".toList) (Reply.line "ok".toList))
    ⟨rfl, rfl, rfl⟩ ⟨"0004A30B001A2B3C".toList, ⟨by decide, by decide, rfl⟩, rfl⟩).2
    ⟨banner_2483, rfl, by decide, by decide, by decide, by decide⟩
    ⟨"868".toList, 868, ⟨by decide, by decide, rfl⟩, by decide⟩ rfl
    ⟨by decide, by decide, rfl⟩

end RN2483
